import Mathlib

/-!
Verification of the red-black tree engine in
`src/tree_algorithm/RedBlackTree/RedBlackTree.h`.

The C++ code mutates a pointer structure in place (`std::shared_ptr` child
links, `std::weak_ptr` parent links).  We embed it shallowly: nodes live in an
explicit heap indexed by natural-number addresses, a tree state is the heap
together with the `root` pointer, and every member function becomes a state
transformer that can fail.  Failure modes:

* `Err.nullNode`   – the `throw std::invalid_argument` calls guarding a null
  primary argument (`left_rotate`, `right_rotate`, `transplant`, `remove`,
  `successor`, `predecessor`);
* `Err.notInTree`  – the `throw std::invalid_argument` in `remove` when the
  key-guided descent does not reach the argument node;
* `Err.nullDeref`  – dereferencing a null (or, in the model, dangling)
  pointer, which in C++ is undefined behaviour, not an exception;
* `Err.noFuel`     – the model's fuel for a `while` loop ran out (the C++
  loops have no bound; on garbage heaps they can diverge).

`weak_ptr::lock()` on a parent link is modelled as reading the stored
optional address (nodes are never destroyed while an operation runs, so a
live `weak_ptr` locks successfully).  Control flow inside the bodies is
routed through the combinators `optCase`, `whenB` and `iteM`, which are
definitionally `match` and `if`; this keeps every body a plain chain of
binds.
-/

namespace RBT

inductive COLOR where
  | RED : COLOR
  | BLACK : COLOR
deriving DecidableEq

open COLOR

/-- Modelled from the spec: `RedBlackTreeNode.h` is not under `src/`.  Per the
spec's data model, a node stores a `key`, a `color`, owning child references
`lchild`/`rchild` (absent = no child) and a non-owning `parent` back-reference
(absent = root marker). -/
structure Node where
  key : Int
  color : COLOR
  lchild : Option Nat
  rchild : Option Nat
  parent : Option Nat
deriving DecidableEq

/-- Modelled from the spec: a node is constructed by the caller with a key,
the default RED color and no links. -/
def freshNode (k : Int) : Node :=
  { key := k, color := RED, lchild := none, rchild := none, parent := none }

/-- A tree state: the heap of allocated nodes and the `root` member of
`RedBlackTree`. -/
structure RBState where
  heap : Nat → Option Node
  root : Option Nat

inductive Err where
  | nullNode : Err
  | notInTree : Err
  | nullDeref : Err
  | noFuel : Err
deriving DecidableEq

/-- Outcome of running an operation: a value plus the final state, or an
error plus the state at the moment the error occurred (a C++ `throw` leaves
memory as it was at the throw site). -/
inductive MRes (α : Type) where
  | ok : α → RBState → MRes α
  | err : Err → RBState → MRes α

/-- The state-and-error monad all operations are written in. -/
def M (α : Type) : Type := RBState → MRes α

def M.run (x : M α) (s : RBState) : MRes α := x s

def M.bind (x : M α) (f : α → M β) : M β := fun s =>
  match x s with
  | .ok a s' => (f a).run s'
  | .err e s' => .err e s'

def M.pure (a : α) : M α := fun s => .ok a s

instance : Monad M where
  pure := M.pure
  bind := M.bind

def throwE (e : Err) : M α := fun s => .err e s

def getRoot : M (Option Nat) := fun s => .ok s.root s

def setRoot (r : Option Nat) : M Unit := fun s =>
  .ok () { s with root := r }

/-- Dereference a node pointer known non-null: `none` is a null
dereference. -/
def readNode (a : Nat) : M Node := fun s =>
  match s.heap a with
  | some n => .ok n s
  | none => .err Err.nullDeref s

/-- Look a node up without treating absence as a fault (used for the
`weak_ptr::lock()`-style reads inside `is_left_child`/`is_right_child`). -/
def peek (a : Nat) : M (Option Node) := fun s => .ok (s.heap a) s

/-- Heap update: store node `n` at address `a`. -/
def hupd (h : Nat → Option Node) (a : Nat) (n : Node) : Nat → Option Node :=
  fun b => if b = a then some n else h b

def writeNode (a : Nat) (n : Node) : M Unit := fun s =>
  .ok () { s with heap := hupd s.heap a n }

def setColor (a : Nat) (c : COLOR) : M Unit := do
  let n ← readNode a
  writeNode a { n with color := c }

def setLchild (a : Nat) (v : Option Nat) : M Unit := do
  let n ← readNode a
  writeNode a { n with lchild := v }

def setRchild (a : Nat) (v : Option Nat) : M Unit := do
  let n ← readNode a
  writeNode a { n with rchild := v }

def setParent (a : Nat) (v : Option Nat) : M Unit := do
  let n ← readNode a
  writeNode a { n with parent := v }

/-- Extract a non-null pointer; dereferencing `none` is undefined behaviour
(`Err.nullDeref`). -/
def derefAddr (a? : Option Nat) : M Nat :=
  match a? with
  | some a => M.pure a
  | none => throwE Err.nullDeref

/-- Branch on an optional value (definitionally a `match`). -/
def optCase (o : Option γ) (n : M α) (f : γ → M α) : M α :=
  match o with
  | none => n
  | some x => f x

/-- Run an action only when the condition holds (a C++ `if` without
`else`). -/
def whenB (b : Bool) (act : M Unit) : M Unit :=
  if b then act else M.pure ()

/-- A C++ `if`/`else` with both branches monadic. -/
def iteM (b : Bool) (t e : M α) : M α :=
  if b then t else e

/-- Modelled from the spec: `RedBlackTreeNode::is_left_child` is declared in
the missing `RedBlackTreeNode.h`; per the spec's shape contract it tests
whether the node's parent exists and holds the node in its `lchild` slot. -/
def is_left_child (a : Nat) : M Bool := do
  let n ← readNode a
  optCase n.parent (M.pure false) fun p => do
    let pn? ← peek p
    optCase pn? (M.pure false) fun pn => M.pure (pn.lchild == some a)

/-- Modelled from the spec: mirror of `is_left_child` for the `rchild`
slot. -/
def is_right_child (a : Nat) : M Bool := do
  let n ← readNode a
  optCase n.parent (M.pure false) fun p => do
    let pn? ← peek p
    optCase pn? (M.pure false) fun pn => M.pure (pn.rchild == some a)

/-- `RedBlackTree::left_rotate` (RedBlackTree.h lines 77–104).  Throws on a
null `node`; if `node->rchild` is null the body is skipped entirely. -/
def left_rotate (node : Option Nat) : M Unit :=
  optCase node (throwE Err.nullNode) fun nd => do
    let r_node := (← readNode nd).rchild
    optCase r_node (M.pure ()) fun r => do
      let l_r_node := (← readNode r).lchild
      let npar := (← readNode nd).parent
      setParent r npar
      optCase npar (setRoot (some r)) (fun p => do
        whenB (← is_left_child nd) (setLchild p (some r))
        whenB (← is_right_child nd) (setRchild p (some r)))
      setRchild nd l_r_node
      optCase l_r_node (M.pure ()) (fun lr => setParent lr (some nd))
      setParent nd (some r)
      setLchild r (some nd)

/-- `RedBlackTree::right_rotate` (RedBlackTree.h lines 123–148), the mirror
image of `left_rotate`. -/
def right_rotate (node : Option Nat) : M Unit :=
  optCase node (throwE Err.nullNode) fun nd => do
    let l_node := (← readNode nd).lchild
    optCase l_node (M.pure ()) fun l => do
      let r_l_node := (← readNode l).rchild
      let npar := (← readNode nd).parent
      setParent l npar
      optCase npar (setRoot (some l)) (fun p => do
        whenB (← is_left_child nd) (setLchild p (some l))
        whenB (← is_right_child nd) (setRchild p (some l)))
      setLchild nd r_l_node
      optCase r_l_node (M.pure ()) (fun rl => setParent rl (some nd))
      setParent nd (some l)
      setRchild l (some nd)

/-- One iteration of the `while (node_p->color == RED)` body of
`RedBlackTree::insert_fixup` (RedBlackTree.h lines 197–255), returning the
new `node` together with the new `node_p` (`none` triggers the
`if (!node_p) break;` at the loop bottom). -/
def insert_fixup_iter (node node_p : Nat) : M (Nat × Option Nat) := do
  let node_p_p := (← readNode node_p).parent
  iteM (← is_left_child node_p)
    (do
      let g ← derefAddr node_p_p
      let uncle := (← readNode g).rchild
      let uncleRed ← optCase uncle (M.pure false)
        (fun u => do M.pure ((← readNode u).color == RED))
      iteM uncleRed
        (do
          setColor node_p BLACK
          optCase uncle (M.pure ()) (fun u => setColor u BLACK)
          setColor g RED
          let np2 := (← readNode g).parent
          optCase np2
            (do setColor g BLACK; M.pure (g, none))
            (fun np => M.pure (g, some np)))
        (iteM (← is_right_child node)
          (do
            let node1 := node_p
            left_rotate (some node1)
            let np2 ← derefAddr (← readNode node1).parent
            let gp? := (← readNode np2).parent
            setColor np2 BLACK
            let gp ← derefAddr gp?
            setColor gp RED
            right_rotate (some gp)
            M.pure (node1, some np2))
          (do
            setColor node_p BLACK
            setColor g RED
            right_rotate (some g)
            M.pure (node, some node_p))))
    (do
      let g ← derefAddr node_p_p
      let uncle := (← readNode g).lchild
      let uncleRed ← optCase uncle (M.pure false)
        (fun u => do M.pure ((← readNode u).color == RED))
      iteM uncleRed
        (do
          setColor node_p BLACK
          optCase uncle (M.pure ()) (fun u => setColor u BLACK)
          setColor g RED
          let np2 := (← readNode g).parent
          optCase np2
            (do setColor g BLACK; M.pure (g, none))
            (fun np => M.pure (g, some np)))
        (iteM (← is_left_child node)
          (do
            let node1 := node_p
            right_rotate (some node1)
            let np2 ← derefAddr (← readNode node1).parent
            let gp? := (← readNode np2).parent
            setColor np2 BLACK
            let gp ← derefAddr gp?
            setColor gp RED
            left_rotate (some gp)
            M.pure (node1, some np2))
          (do
            setColor node_p BLACK
            setColor g RED
            left_rotate (some g)
            M.pure (node, some node_p))))

/-- The `while (node_p->color == RED)` loop of `RedBlackTree::insert_fixup`,
with fuel for the unbounded iteration. -/
def insert_fixup_loop : Nat → Nat → Nat → M Unit
  | 0, _, _ => throwE Err.noFuel
  | fuel+1, node, node_p => do
    iteM ((← readNode node_p).color == RED)
      (do
        let st ← insert_fixup_iter node node_p
        optCase st.2 (M.pure ()) (fun np' => insert_fixup_loop fuel st.1 np'))
      (M.pure ())

/-- `RedBlackTree::insert_fixup` (RedBlackTree.h lines 186–259). -/
def insert_fixup (fuel : Nat) (node : Nat) : M Unit := do
  let node_p? := (← readNode node).parent
  optCase node_p?
    (do setRoot (some node); setColor node BLACK)
    (fun np => insert_fixup_loop fuel node np)

/-- The BST descent loop of `RedBlackTree::insert` (RedBlackTree.h lines
281–291): returns the last visited node `temp_parent` and the side `left`
taken out of it. -/
def bst_descend : Nat → Int → Option Nat → Nat → Bool → M (Nat × Bool)
  | _, _, none, tp, left => M.pure (tp, left)
  | 0, _, some _, _, _ => throwE Err.noFuel
  | fuel+1, k, some t, _, _ => do
    let tn ← readNode t
    iteM (decide (k < tn.key))
      (bst_descend fuel k tn.lchild t true)
      (bst_descend fuel k tn.rchild t false)

/-- The non-empty-tree part of `RedBlackTree::insert`: descend, splice the
node in, color it RED (lines 278–296); returns the spliced node's address so
`insert` can pass it to `insert_fixup`. -/
def insert_splice (fuel : Nat) (node : Option Nat) (rt : Nat) : M Nat := do
  let nd ← derefAddr node
  let k := (← readNode nd).key
  let tpl ← bst_descend fuel k (some rt) rt true
  setParent nd (some tpl.1)
  iteM tpl.2 (setLchild tpl.1 (some nd)) (setRchild tpl.1 (some nd))
  setColor nd RED
  M.pure nd

/-- `RedBlackTree::insert` (RedBlackTree.h lines 271–298).  On an empty tree
the node becomes `root` and the function returns at once (no recoloring, no
fixup). -/
def insert (fuel : Nat) (node : Option Nat) : M Unit := do
  let r ← getRoot
  optCase r (setRoot node) fun rt => do
    let nd ← insert_splice fuel node rt
    insert_fixup fuel nd

/-- The descent loop of `RedBlackTree::minimum`: follow `lchild` links,
remembering the last present node. -/
def minimum_loop : Nat → Option Nat → Option Nat → M (Option Nat)
  | _, none, cp => M.pure cp
  | 0, some _, _ => throwE Err.noFuel
  | fuel+1, some c, _ => do
    minimum_loop fuel ((← readNode c).lchild) (some c)

/-- `RedBlackTree::minimum` (RedBlackTree.h lines 562–574).  The
empty-subtree warning is a print to `std::cerr`, not a state change. -/
def minimum (fuel : Nat) (node : Option Nat) : M (Option Nat) :=
  minimum_loop fuel node none

/-- The descent loop of `RedBlackTree::maximum`: follow `rchild` links. -/
def maximum_loop : Nat → Option Nat → Option Nat → M (Option Nat)
  | _, none, cp => M.pure cp
  | 0, some _, _ => throwE Err.noFuel
  | fuel+1, some c, _ => do
    maximum_loop fuel ((← readNode c).rchild) (some c)

/-- `RedBlackTree::maximum` (RedBlackTree.h lines 583–594). -/
def maximum (fuel : Nat) (node : Option Nat) : M (Option Nat) :=
  maximum_loop fuel node none

/-- The ascent loop of `RedBlackTree::successor` (lines 623–626): climb while
the current node is a right child, then return the parent. -/
def successor_ascend : Nat → Nat → Option Nat → M (Option Nat)
  | 0, _, some _ => throwE Err.noFuel
  | _, _, none => M.pure none
  | fuel+1, current, some p => do
    iteM (← is_right_child current)
      (do successor_ascend fuel p ((← readNode p).parent))
      (M.pure (some p))

/-- `RedBlackTree::successor` (RedBlackTree.h lines 613–628). -/
def successor (fuel : Nat) (node : Option Nat) : M (Option Nat) :=
  optCase node (throwE Err.nullNode) fun nd => do
    let n ← readNode nd
    optCase n.rchild (successor_ascend fuel nd n.parent)
      (fun rc => minimum fuel (some rc))

/-- The ascent loop of `RedBlackTree::predecessor` (lines 656–659). -/
def predecessor_ascend : Nat → Nat → Option Nat → M (Option Nat)
  | 0, _, some _ => throwE Err.noFuel
  | _, _, none => M.pure none
  | fuel+1, current, some p => do
    iteM (← is_left_child current)
      (do predecessor_ascend fuel p ((← readNode p).parent))
      (M.pure (some p))

/-- `RedBlackTree::predecessor` (RedBlackTree.h lines 646–661). -/
def predecessor (fuel : Nat) (node : Option Nat) : M (Option Nat) :=
  optCase node (throwE Err.nullNode) fun nd => do
    let n ← readNode nd
    optCase n.lchild (predecessor_ascend fuel nd n.parent)
      (fun lc => maximum fuel (some lc))

/-- `RedBlackTree::transplant` (RedBlackTree.h lines 460–474). -/
def transplant (u v : Option Nat) : M Unit :=
  optCase u (throwE Err.nullNode) fun uu => do
    let u_parent := (← readNode uu).parent
    optCase u_parent (setRoot v) (fun p => do
      iteM (← is_left_child uu) (setLchild p v)
        (do whenB (← is_right_child uu) (setRchild p v)))
    optCase v (M.pure ()) (fun vv => setParent vv u_parent)

/-- The case-3 guard of `delete_fixup`, left orientation (RedBlackTree.h
lines 370–371), with the source's short-circuit evaluation order.  The `w`
non-nullness conjunct is discharged by the caller's match. -/
def guard3_left (w : Nat) : M Bool := do
  iteM ((← readNode w).color == BLACK)
    (do
      let wl? := (← readNode w).lchild
      optCase wl? (M.pure false) fun wl => do
        iteM ((← readNode wl).color == RED)
          (do
            let wr? := (← readNode w).rchild
            optCase wr? (M.pure true)
              (fun wr => do M.pure ((← readNode wr).color == BLACK)))
          (M.pure false))
    (M.pure false)

/-- The case-4 guard of `delete_fixup`, left orientation (line 391). -/
def guard4_left (w : Nat) : M Bool := do
  iteM ((← readNode w).color == BLACK)
    (do
      let wr? := (← readNode w).rchild
      optCase wr? (M.pure false)
        (fun wr => do M.pure ((← readNode wr).color == RED)))
    (M.pure false)

/-- The case-3 guard of `delete_fixup`, right orientation (lines 417–418). -/
def guard3_right (w : Nat) : M Bool := do
  iteM ((← readNode w).color == BLACK)
    (do
      let wr? := (← readNode w).rchild
      optCase wr? (M.pure false) fun wr => do
        iteM ((← readNode wr).color == RED)
          (do
            let wl? := (← readNode w).lchild
            optCase wl? (M.pure true)
              (fun wl => do M.pure ((← readNode wl).color == BLACK)))
          (M.pure false))
    (M.pure false)

/-- The case-4 guard of `delete_fixup`, right orientation (line 438). -/
def guard4_right (w : Nat) : M Bool := do
  iteM ((← readNode w).color == BLACK)
    (do
      let wl? := (← readNode w).lchild
      optCase wl? (M.pure false)
        (fun wl => do M.pure ((← readNode wl).color == RED)))
    (M.pure false)

/-- One iteration of the `delete_fixup` loop body (RedBlackTree.h lines
351–446), returning the new value of `node`.  Faithful to the source's
control flow: in each orientation case 1 is a plain `if`, case 2 is a second
plain `if` guarded only by `w` being present and BLACK (the children are not
inspected), and cases 3 and 4 are `else if`s of case 2 whose guards repeat
the `w->color == BLACK` test — so they are unreachable.  In the right
orientation case 1 does not recompute `w` after the rotation. -/
def delete_fixup_iter (nd : Nat) : M (Option Nat) := do
  iteM (← is_left_child nd)
    (do
      let node_p ← derefAddr (← readNode nd).parent
      let w0 := (← readNode node_p).rchild
      let w1 ← optCase w0 (M.pure w0) (fun w => do
        iteM ((← readNode w).color == RED)
          (do
            setColor w BLACK
            setColor node_p RED
            left_rotate (some node_p)
            M.pure ((← readNode node_p).rchild))
          (M.pure w0))
      optCase w1 (M.pure (some nd)) (fun w => do
        iteM ((← readNode w).color == BLACK)
          (do
            setColor w RED
            M.pure ((← readNode nd).parent))
          (do
            let g3 ← guard3_left w
            iteM g3
              (do
                let wl ← derefAddr (← readNode w).lchild
                setColor wl BLACK
                setColor w RED
                right_rotate (some w)
                let np2 ← derefAddr (← readNode nd).parent
                let _w2 := (← readNode np2).rchild
                M.pure (some nd))
              (do
                let g4 ← guard4_left w
                iteM g4
                  (do
                    let np2 ← derefAddr (← readNode nd).parent
                    setColor w ((← readNode np2).color)
                    setColor np2 BLACK
                    let wr ← derefAddr (← readNode w).rchild
                    setColor wr BLACK
                    left_rotate (some np2)
                    getRoot)
                  (M.pure (some nd))))))
    (do
      let node_p ← derefAddr (← readNode nd).parent
      let w0 := (← readNode node_p).lchild
      let w1 ← optCase w0 (M.pure w0) (fun w => do
        iteM ((← readNode w).color == RED)
          (do
            setColor w BLACK
            setColor node_p RED
            right_rotate (some node_p)
            M.pure w0)
          (M.pure w0))
      optCase w1 (M.pure (some nd)) (fun w => do
        iteM ((← readNode w).color == BLACK)
          (do
            setColor w RED
            M.pure ((← readNode nd).parent))
          (do
            let g3 ← guard3_right w
            iteM g3
              (do
                let wr ← derefAddr (← readNode w).rchild
                setColor wr BLACK
                setColor w RED
                left_rotate (some w)
                let np2 ← derefAddr (← readNode nd).parent
                let _w2 := (← readNode np2).lchild
                M.pure (some nd))
              (do
                let g4 ← guard4_right w
                iteM g4
                  (do
                    let np2 ← derefAddr (← readNode nd).parent
                    setColor w ((← readNode np2).color)
                    setColor np2 BLACK
                    let wl ← derefAddr (← readNode w).lchild
                    setColor wl BLACK
                    right_rotate (some np2)
                    getRoot)
                  (M.pure (some nd))))))

/-- The `while (node != root && node && node->color == BLACK)` loop of
`RedBlackTree::delete_fixup` (lines 350–447), returning the final `node`. -/
def delete_fixup_loop : Nat → Option Nat → M (Option Nat)
  | 0, _ => throwE Err.noFuel
  | fuel+1, node => do
    let r ← getRoot
    iteM (node == r) (M.pure node)
      (optCase node (M.pure none) fun nd => do
        iteM ((← readNode nd).color == BLACK)
          (do
            let node' ← delete_fixup_iter nd
            delete_fixup_loop fuel node')
          (M.pure node))

/-- `RedBlackTree::delete_fixup` (RedBlackTree.h lines 346–450): the loop
followed by the unconditional final `if (node) node->color = BLACK;`. -/
def delete_fixup (fuel : Nat) (node : Option Nat) : M Unit := do
  let node' ← delete_fixup_loop fuel node
  optCase node' (M.pure ()) (fun nd => setColor nd BLACK)

/-- The membership-check descent of `RedBlackTree::remove` (lines 495–501):
key-guided descent from `temp`, stopping when `temp` is the argument node
(found) or null (not found). -/
def remove_find : Nat → Nat → Option Nat → M Bool
  | _, _, none => M.pure false
  | 0, _, some _ => throwE Err.noFuel
  | fuel+1, nd, some t =>
    iteM (t == nd) (M.pure true)
      (do
        let nn ← readNode nd
        let tn ← readNode t
        iteM (decide (nn.key < tn.key))
          (remove_find fuel nd tn.lchild)
          (remove_find fuel nd tn.rchild))

/-- The splice-out phase of `RedBlackTree::remove` after the membership check
(lines 505–552).  Returns the observational pair `(y_color, fixup_invoked)`:
`y_color` is the C++ local of the same name and `fixup_invoked` records
whether `delete_fixup(x)` was called.  Note the source initialises
`y_color = RED` and updates it only in the two-children branch. -/
def remove_surgery (fuel : Nat) (nd : Nat) : M (COLOR × Bool) := do
  let n ← readNode nd
  let xy ← (optCase n.lchild
    (optCase n.rchild
      (do -- no children: detach from the parent (or clear root)
        optCase n.parent (setRoot none) (fun p => do
          whenB (← is_left_child nd) (setLchild p none)
          whenB (← is_right_child nd) (setRchild p none))
        M.pure ((none : Option Nat), RED))
      (fun rc => do -- right child only
        transplant (some nd) (some rc)
        M.pure (some rc, RED)))
    (fun lc =>
      (optCase n.rchild
        (do -- left child only
          transplant (some nd) (some lc)
          M.pure (some lc, RED))
        (fun _ => do -- two children
          let y? ← successor fuel (some nd)
          let y ← derefAddr y?
          let yn ← readNode y
          let x := yn.rchild
          let y_color := yn.color
          whenB (y? != (← readNode nd).rchild) (do
            transplant (some y) ((← readNode y).rchild)
            setRchild y ((← readNode nd).rchild)
            let rc2 ← derefAddr (← readNode nd).rchild
            setParent rc2 (some y)
            setRchild nd (some y))
          transplant (some nd) (some y)
          setLchild y ((← readNode nd).lchild)
          let lc2 ← derefAddr (← readNode nd).lchild
          setParent lc2 (some y)
          setColor y ((← readNode nd).color)
          M.pure (x, y_color)))))
  iteM (xy.2 == BLACK)
    (do delete_fixup fuel xy.1; M.pure (xy.2, true))
    (M.pure (xy.2, false))

/-- `RedBlackTree::remove` (RedBlackTree.h lines 489–553): null check,
membership check, then the splice-out phase. -/
def remove (fuel : Nat) (node : Option Nat) : M (COLOR × Bool) :=
  optCase node (throwE Err.nullNode) fun nd => do
    let r ← getRoot
    let found ← remove_find fuel nd r
    iteM found (remove_surgery fuel nd) (throwE Err.notInTree)

/-! ## Observation helpers -/

def M.valueOf (x : M α) (s : RBState) : Option α :=
  match x.run s with
  | .ok a _ => some a
  | .err _ _ => none

def M.errOf (x : M α) (s : RBState) : Option Err :=
  match x.run s with
  | .ok _ _ => none
  | .err e _ => some e

def M.stateOf (x : M α) (s : RBState) : RBState :=
  match x.run s with
  | .ok _ s' => s'
  | .err _ s' => s'

/-- Color of the node stored at address `a`, if allocated. -/
def colorAt (s : RBState) (a : Nat) : Option COLOR :=
  (s.heap a).map Node.color

/-! ## Extracted trees and the invariant checker (spec §3, I1–I6) -/

/-- A pointer-free binary tree with colors and keys, extracted from a heap. -/
inductive BTree where
  | nil : BTree
  | node : COLOR → Int → BTree → BTree → BTree
deriving DecidableEq

/-- Extract the tree hanging from `a?` out of the heap; `none` if the fuel
runs out or a child pointer dangles. -/
def extract : Nat → (Nat → Option Node) → Option Nat → Option BTree
  | _, _, none => some BTree.nil
  | 0, _, some _ => none
  | fuel+1, h, some a =>
    match h a with
    | none => none
    | some n => do
      let l ← extract fuel h n.lchild
      let r ← extract fuel h n.rchild
      some (BTree.node n.color n.key l r)

/-- I2: the root, if present, is BLACK. -/
def rootBlack : BTree → Bool
  | BTree.nil => true
  | BTree.node c _ _ _ => c == BLACK

/-- The effective color of a possibly-absent subtree root: absent children
count as BLACK (I3). -/
def topColor : BTree → COLOR
  | BTree.nil => BLACK
  | BTree.node c _ _ _ => c

/-- I4: no RED node has a RED child (absent children count as BLACK). -/
def noRedRed : BTree → Bool
  | BTree.nil => true
  | BTree.node c _ l r =>
    noRedRed l && noRedRed r &&
      (c == BLACK || (topColor l == BLACK && topColor r == BLACK))

/-- Black-height of a tree when uniform on all root-to-absent-child paths
(I5); `none` when two paths disagree. -/
def blackHeightOf : BTree → Option Nat
  | BTree.nil => some 1
  | BTree.node c _ l r => do
    let bl ← blackHeightOf l
    let br ← blackHeightOf r
    if bl = br then some (bl + (if c = BLACK then 1 else 0)) else none

/-- In-order key sequence. -/
def inorder : BTree → List Int
  | BTree.nil => []
  | BTree.node _ k l r => inorder l ++ k :: inorder r

/-- I6: a non-decreasing list of keys. -/
def nondecreasing : List Int → Bool
  | [] => true
  | [_] => true
  | a :: b :: rest => a ≤ b && nondecreasing (b :: rest)

/-- The full invariant check I1–I6 over an extracted tree (I1 is enforced by
the `COLOR` type, I3 by `topColor`). -/
def invariantsOk (t : BTree) : Bool :=
  rootBlack t && noRedRed t && (blackHeightOf t).isSome &&
    nondecreasing (inorder t)

/-! ## Spec-side definitions for navigation (spec §4.4), used for claim C7 -/

/-- Spec §4.4 for `successor` without a right child: ascend through parents
while the current node is a right child; the answer is the first ancestor
reached via a left-child step, or absent if none exists.  `none` = out of
fuel, `some r` = the spec's answer. -/
def ascendRightSpec : Nat → (Nat → Option Node) → Nat → Option (Option Nat)
  | 0, _, _ => none
  | fuel+1, h, a =>
    match h a with
    | none => none
    | some n =>
      match n.parent with
      | none => some none
      | some p =>
        match h p with
        | none => none
        | some pn =>
          if pn.rchild = some a then ascendRightSpec fuel h p
          else if pn.lchild = some a then some (some p)
          else some none

/-- Mirror of `ascendRightSpec` for `predecessor` (spec: ascend while the
current node is a left child). -/
def ascendLeftSpec : Nat → (Nat → Option Node) → Nat → Option (Option Nat)
  | 0, _, _ => none
  | fuel+1, h, a =>
    match h a with
    | none => none
    | some n =>
      match n.parent with
      | none => some none
      | some p =>
        match h p with
        | none => none
        | some pn =>
          if pn.lchild = some a then ascendLeftSpec fuel h p
          else if pn.rchild = some a then some (some p)
          else some none

/-- Pure version of the key-guided membership descent of `remove` (used to
state claim C5): `some true` = the descent reaches the argument node,
`some false` = it falls off the tree, `none` = fuel exhausted or a dangling
pointer read. -/
def findsByKey : Nat → (Nat → Option Node) → Option Nat → Nat → Option Bool
  | _, _, none, _ => some false
  | 0, _, some _, _ => none
  | fuel+1, h, some t, a =>
    if t = a then some true
    else
      match h a, h t with
      | some an, some tn =>
        if an.key < tn.key then findsByKey fuel h tn.lchild a
        else findsByKey fuel h tn.rchild a
      | _, _ => none

/-! ## Structural predicates about operations and heaps -/

/-- The operation never surfaces a C++ `std::invalid_argument` throw: every
error it can produce is an undefined-behaviour or fuel artefact of the
model. -/
def NoThrow (x : M α) : Prop :=
  ∀ s e s', x.run s = .err e s' → e = Err.nullDeref ∨ e = Err.noFuel

/-- The operation never changes the state, whether it succeeds or fails. -/
def ReadOnly (x : M α) : Prop :=
  ∀ s, x.stateOf s = s

/-- Every pointer stored in an allocated node leads to an allocated node. -/
def HeapClosed (h : Nat → Option Node) : Prop :=
  ∀ a n, h a = some n →
    (∀ p, n.parent = some p → (h p).isSome) ∧
    (∀ c, n.lchild = some c → (h c).isSome) ∧
    (∀ c, n.rchild = some c → (h c).isSome)

/-- Every parent back-reference is matched by a child slot of the parent. -/
def ParentCoherent (h : Nat → Option Node) : Prop :=
  ∀ a n p pn, h a = some n → n.parent = some p → h p = some pn →
    pn.lchild = some a ∨ pn.rchild = some a

/-- Address `a` is not referenced anywhere in the state: the root does not
point at it and no other allocated node links to it through any field (the
situation of a node just spliced out of the tree). -/
def Unref (s : RBState) (a : Nat) : Prop :=
  s.root ≠ some a ∧
  ∀ b nb, s.heap b = some nb → b ≠ a →
    nb.lchild ≠ some a ∧ nb.rchild ≠ some a ∧ nb.parent ≠ some a

/-! ## Concrete scenario states -/

/-- An empty tree plus one freshly constructed (hence RED, unlinked) node at
address 0 with key 5, exactly what a caller hands to `insert`. -/
def stEmpty : RBState :=
  { heap := fun a => if a = 0 then some (freshNode 5) else none, root := none }

/-- A valid red-black tree: BLACK root (address 0, key 10) whose only child
is the RED right child at address 1 (key 20). -/
def stOneRed : RBState :=
  { heap := fun a =>
      if a = 0 then
        some { key := 10, color := BLACK, lchild := none, rchild := some 1,
               parent := none }
      else if a = 1 then
        some { key := 20, color := RED, lchild := none, rchild := none,
               parent := some 0 }
      else none,
    root := some 0 }

/-- A `delete_fixup` configuration, left orientation: `x` is the BLACK left
child 1, its sibling 2 is BLACK and has a RED right child 3 — the canonical
case-4 situation. -/
def stFix4L : RBState :=
  { heap := fun a =>
      if a = 0 then
        some { key := 10, color := RED, lchild := some 1, rchild := some 2,
               parent := none }
      else if a = 1 then
        some { key := 5, color := BLACK, lchild := none, rchild := none,
               parent := some 0 }
      else if a = 2 then
        some { key := 20, color := BLACK, lchild := none, rchild := some 3,
               parent := some 0 }
      else if a = 3 then
        some { key := 30, color := RED, lchild := none, rchild := none,
               parent := some 2 }
      else none,
    root := some 0 }

/-- A `delete_fixup` configuration, right orientation: `x` is the BLACK right
child 1 of the BLACK root 0, the sibling 2 is RED with BLACK children 4 and
5 — the canonical case-1 situation. -/
def stFix4R : RBState :=
  { heap := fun a =>
      if a = 0 then
        some { key := 10, color := BLACK, lchild := some 2, rchild := some 1,
               parent := none }
      else if a = 1 then
        some { key := 20, color := BLACK, lchild := none, rchild := none,
               parent := some 0 }
      else if a = 2 then
        some { key := 5, color := RED, lchild := some 4, rchild := some 5,
               parent := some 0 }
      else if a = 4 then
        some { key := 2, color := BLACK, lchild := none, rchild := none,
               parent := some 2 }
      else if a = 5 then
        some { key := 7, color := BLACK, lchild := none, rchild := none,
               parent := some 2 }
      else none,
    root := some 0 }

/-- C1: after an insert/remove sequence the invariants I1–I6 need not hold —
refuted by the shortest possible sequence.  Inserting one fresh (RED) node
into the empty tree succeeds, but the resulting tree fails the invariant
checker: `insert` returns before recoloring when the tree is empty
(RedBlackTree.h lines 274–277), so the lone root stays RED, violating I2. -/
theorem C1_single_insert_breaks_invariants :
    (insert 20 (some 0)).errOf stEmpty = none ∧
    (extract 20 ((insert 20 (some 0)).stateOf stEmpty).heap
        ((insert 20 (some 0)).stateOf stEmpty).root).map invariantsOk =
      some false := by
  decide

/-- C3: insert into an empty tree makes the node the root but does NOT color
it BLACK: the early return at RedBlackTree.h lines 274–277 skips both
`node->color = RED` and `insert_fixup`, so the fresh node keeps its
caller-given RED color. -/
theorem C3_insert_empty_root_stays_red :
    (insert 20 (some 0)).errOf stEmpty = none ∧
    ((insert 20 (some 0)).stateOf stEmpty).root = some 0 ∧
    colorAt ((insert 20 (some 0)).stateOf stEmpty) 0 = some RED := by
  decide

/-- C2: removing the BLACK root of `stOneRed` (which has exactly one child,
the RED node 1) keeps `y_color = RED` — the initialisation at
RedBlackTree.h line 507 is never updated outside the two-children branch —
so `delete_fixup` is not invoked even though the spliced-out node was BLACK,
and the tree is left with a RED root. -/
theorem C2_one_child_case_never_records_y_color :
    colorAt stOneRed 0 = some BLACK ∧
    (remove 20 (some 0)).valueOf stOneRed = some (RED, false) ∧
    ((remove 20 (some 0)).stateOf stOneRed).root = some 1 ∧
    colorAt ((remove 20 (some 0)).stateOf stOneRed) 1 = some RED := by
  decide

/-- C4: two refutations of the claimed `delete_fixup` case discipline.
Left orientation (`stFix4L`): the sibling 2 is BLACK but has a RED child 3,
yet case 2 fires (its guard at RedBlackTree.h line 363 never inspects the
sibling's children), recoloring the sibling RED and leaving the RED-RED edge
2–3.  Right orientation (`stFix4R`): case 1 rotates at the parent without
recomputing `w` (lines 404–408), so case 2 then fires on the stale sibling
in the same iteration, re-reddening the node case 1 had just blackened and
leaving the new root 2 RED. -/
theorem C4_delete_fixup_case_discipline_violated :
    ((delete_fixup 20 (some 1)).errOf stFix4L = none ∧
      colorAt stFix4L 2 = some BLACK ∧
      colorAt stFix4L 3 = some RED ∧
      colorAt ((delete_fixup 20 (some 1)).stateOf stFix4L) 2 = some RED ∧
      colorAt ((delete_fixup 20 (some 1)).stateOf stFix4L) 3 = some RED) ∧
    ((delete_fixup 20 (some 1)).errOf stFix4R = none ∧
      colorAt stFix4R 2 = some RED ∧
      ((delete_fixup 20 (some 1)).stateOf stFix4R).root = some 2 ∧
      colorAt ((delete_fixup 20 (some 1)).stateOf stFix4R) 2 = some RED) := by
  decide

/-! ## Running lemmas for the monad -/

theorem run_bind (x : M α) (f : α → M β) (s : RBState) :
    (x >>= f).run s = match x.run s with
      | .ok a s' => (f a).run s'
      | .err e s' => .err e s' := rfl

theorem run_bind_ok {x : M α} {f : α → M β} {s s' : RBState} {v : β}
    (h : (x >>= f).run s = .ok v s') :
    ∃ a s1, x.run s = .ok a s1 ∧ (f a).run s1 = .ok v s' := by
  rw [run_bind] at h
  cases hx : x.run s with
  | ok a s1 => exact ⟨a, s1, rfl, by rw [hx] at h; exact h⟩
  | err e1 s1 => rw [hx] at h; cases h

theorem run_bind_err {x : M α} {f : α → M β} {s s' : RBState} {e : Err}
    (h : (x >>= f).run s = .err e s') :
    (x.run s = .err e s') ∨
      (∃ a s1, x.run s = .ok a s1 ∧ (f a).run s1 = .err e s') := by
  rw [run_bind] at h
  cases hx : x.run s with
  | ok a s1 => exact Or.inr ⟨a, s1, rfl, by rw [hx] at h; exact h⟩
  | err e1 s1 =>
    rw [hx] at h
    exact Or.inl (by simpa using h)

/-! ## NoThrow lemmas -/

theorem noThrow_bind {x : M α} {f : α → M β} (hx : NoThrow x)
    (hf : ∀ a, NoThrow (f a)) : NoThrow (x >>= f) := by
  intro s e s' h
  rcases run_bind_err h with h1 | ⟨a, s1, _, h2⟩
  · exact hx _ _ _ h1
  · exact hf a _ _ _ h2

theorem noThrow_pure (a : α) : NoThrow (M.pure a) := by
  intro s e s' h; cases h

theorem noThrow_noFuel : NoThrow (throwE Err.noFuel : M α) := by
  intro s e s' h; cases h; exact Or.inr rfl

theorem noThrow_readNode (a : Nat) : NoThrow (readNode a) := by
  intro s e s' h
  have h' : (match s.heap a with
      | some n => MRes.ok n s
      | none => MRes.err Err.nullDeref s) = MRes.err e s' := h
  cases hh : s.heap a with
  | some n => rw [hh] at h'; cases h'
  | none =>
    rw [hh] at h'
    injection h' with h1 h2
    exact Or.inl h1.symm

theorem noThrow_peek (a : Nat) : NoThrow (peek a) := by
  intro s e s' h; cases h

theorem noThrow_writeNode (a : Nat) (n : Node) : NoThrow (writeNode a n) := by
  intro s e s' h; cases h

theorem noThrow_getRoot : NoThrow getRoot := by
  intro s e s' h; cases h

theorem noThrow_setRoot (r : Option Nat) : NoThrow (setRoot r) := by
  intro s e s' h; cases h

theorem noThrow_setColor (a : Nat) (c : COLOR) : NoThrow (setColor a c) :=
  noThrow_bind (noThrow_readNode a) fun _ => noThrow_writeNode a _

theorem noThrow_setLchild (a : Nat) (v : Option Nat) : NoThrow (setLchild a v) :=
  noThrow_bind (noThrow_readNode a) fun _ => noThrow_writeNode a _

theorem noThrow_setRchild (a : Nat) (v : Option Nat) : NoThrow (setRchild a v) :=
  noThrow_bind (noThrow_readNode a) fun _ => noThrow_writeNode a _

theorem noThrow_setParent (a : Nat) (v : Option Nat) : NoThrow (setParent a v) :=
  noThrow_bind (noThrow_readNode a) fun _ => noThrow_writeNode a _

theorem noThrow_derefAddr (a? : Option Nat) : NoThrow (derefAddr a?) := by
  intro s e s' h
  cases a? with
  | some a => cases h
  | none => cases h; exact Or.inl rfl

theorem noThrow_optCase {o : Option γ} {n : M α} {f : γ → M α}
    (hn : NoThrow n) (hf : ∀ x, NoThrow (f x)) : NoThrow (optCase o n f) := by
  cases o with
  | none => exact hn
  | some x => exact hf x

theorem noThrow_whenB {b : Bool} {act : M Unit} (h : NoThrow act) :
    NoThrow (whenB b act) := by
  cases b with
  | false => exact noThrow_pure ()
  | true => exact h

theorem noThrow_iteM {b : Bool} {t e : M α} (ht : NoThrow t) (he : NoThrow e) :
    NoThrow (iteM b t e) := by
  cases b with
  | false => exact he
  | true => exact ht

theorem noThrow_is_left_child (a : Nat) : NoThrow (is_left_child a) :=
  noThrow_bind (noThrow_readNode a) fun _ =>
    noThrow_optCase (noThrow_pure _) fun p =>
      noThrow_bind (noThrow_peek p) fun _ =>
        noThrow_optCase (noThrow_pure _) fun _ => noThrow_pure _

theorem noThrow_is_right_child (a : Nat) : NoThrow (is_right_child a) :=
  noThrow_bind (noThrow_readNode a) fun _ =>
    noThrow_optCase (noThrow_pure _) fun p =>
      noThrow_bind (noThrow_peek p) fun _ =>
        noThrow_optCase (noThrow_pure _) fun _ => noThrow_pure _

theorem noThrow_left_rotate (a : Nat) : NoThrow (left_rotate (some a)) := by
  unfold left_rotate
  simp only [optCase]
  refine noThrow_bind (noThrow_readNode a) fun n => ?_
  refine noThrow_optCase (noThrow_pure _) fun r => ?_
  refine noThrow_bind (noThrow_readNode r) fun n2 => ?_
  refine noThrow_bind (noThrow_readNode a) fun n3 => ?_
  refine noThrow_bind (noThrow_setParent r _) fun _ => ?_
  refine noThrow_bind
    (noThrow_optCase (noThrow_setRoot _) fun p =>
      noThrow_bind (noThrow_is_left_child a) fun b =>
        noThrow_bind (noThrow_whenB (noThrow_setLchild p _)) fun _ =>
          noThrow_bind (noThrow_is_right_child a) fun b2 =>
            noThrow_whenB (noThrow_setRchild p _)) fun _ => ?_
  refine noThrow_bind (noThrow_setRchild a _) fun _ => ?_
  refine noThrow_bind
    (noThrow_optCase (noThrow_pure _) fun lr => noThrow_setParent lr _)
    fun _ => ?_
  exact noThrow_bind (noThrow_setParent a _) fun _ => noThrow_setLchild r _

theorem noThrow_right_rotate (a : Nat) : NoThrow (right_rotate (some a)) := by
  unfold right_rotate
  simp only [optCase]
  refine noThrow_bind (noThrow_readNode a) fun n => ?_
  refine noThrow_optCase (noThrow_pure _) fun l => ?_
  refine noThrow_bind (noThrow_readNode l) fun n2 => ?_
  refine noThrow_bind (noThrow_readNode a) fun n3 => ?_
  refine noThrow_bind (noThrow_setParent l _) fun _ => ?_
  refine noThrow_bind
    (noThrow_optCase (noThrow_setRoot _) fun p =>
      noThrow_bind (noThrow_is_left_child a) fun b =>
        noThrow_bind (noThrow_whenB (noThrow_setLchild p _)) fun _ =>
          noThrow_bind (noThrow_is_right_child a) fun b2 =>
            noThrow_whenB (noThrow_setRchild p _)) fun _ => ?_
  refine noThrow_bind (noThrow_setLchild a _) fun _ => ?_
  refine noThrow_bind
    (noThrow_optCase (noThrow_pure _) fun rl => noThrow_setParent rl _)
    fun _ => ?_
  exact noThrow_bind (noThrow_setParent a _) fun _ => noThrow_setRchild l _

theorem noThrow_transplant (a : Nat) (v : Option Nat) :
    NoThrow (transplant (some a) v) := by
  unfold transplant
  simp only [optCase]
  refine noThrow_bind (noThrow_readNode a) fun n => ?_
  refine noThrow_bind
    (noThrow_optCase (noThrow_setRoot _) fun p =>
      noThrow_bind (noThrow_is_left_child a) fun b =>
        noThrow_iteM (noThrow_setLchild p _)
          (noThrow_bind (noThrow_is_right_child a) fun b2 =>
            noThrow_whenB (noThrow_setRchild p _))) fun _ => ?_
  exact noThrow_optCase (noThrow_pure _) fun vv => noThrow_setParent vv _

theorem run_pure (a : α) (s : RBState) : (M.pure a).run s = .ok a s := rfl

theorem run_readNode (a : Nat) (s : RBState) :
    (readNode a).run s = match s.heap a with
      | some n => MRes.ok n s
      | none => MRes.err Err.nullDeref s := rfl

theorem errOf_not_nullNode {x : M α} (hx : NoThrow x) (s : RBState) :
    x.errOf s ≠ some Err.nullNode := by
  intro h
  unfold M.errOf at h
  cases hr : x.run s with
  | ok a s' => rw [hr] at h; cases h
  | err e s' =>
    rw [hr] at h
    injection h with h1
    rcases hx _ _ _ hr with h2 | h2 <;> rw [h2] at h1 <;> cases h1

/-- C8: `remove`, `successor` and `predecessor` all begin with a null check
that throws `std::invalid_argument` before any tree state is read or
written: on a null argument each returns the invalid-argument failure with
the state exactly as it was passed in. -/
theorem C8_null_argument_rejected (st : RBState) (fuel : Nat) :
    (remove fuel none).run st = .err Err.nullNode st ∧
    (successor fuel none).run st = .err Err.nullNode st ∧
    (predecessor fuel none).run st = .err Err.nullNode st :=
  ⟨rfl, rfl, rfl⟩

/-- C6: `left_rotate`, `right_rotate` and `transplant` raise the
invalid-argument failure exactly when the primary node argument is null
(`errOf` is `some Err.nullNode` iff the argument is `none`; a present node
can at worst produce the model's undefined-behaviour or fuel artefacts,
never the throw), and a rotation on a present node whose relevant child is
absent returns successfully with the state untouched. -/
theorem C6_rotation_transplant_null_guards (st : RBState) (a? v : Option Nat) :
    ((left_rotate a?).errOf st = some Err.nullNode ↔ a? = none) ∧
    ((right_rotate a?).errOf st = some Err.nullNode ↔ a? = none) ∧
    ((transplant a? v).errOf st = some Err.nullNode ↔ a? = none) ∧
    (∀ a n, a? = some a → st.heap a = some n → n.rchild = none →
      (left_rotate a?).run st = .ok () st) ∧
    (∀ a n, a? = some a → st.heap a = some n → n.lchild = none →
      (right_rotate a?).run st = .ok () st) := by
  refine ⟨⟨?_, ?_⟩, ⟨?_, ?_⟩, ⟨?_, ?_⟩, ?_, ?_⟩
  · intro h
    cases a? with
    | none => rfl
    | some a => exact absurd h (errOf_not_nullNode (noThrow_left_rotate a) st)
  · intro h; subst h; rfl
  · intro h
    cases a? with
    | none => rfl
    | some a => exact absurd h (errOf_not_nullNode (noThrow_right_rotate a) st)
  · intro h; subst h; rfl
  · intro h
    cases a? with
    | none => rfl
    | some a => exact absurd h (errOf_not_nullNode (noThrow_transplant a v) st)
  · intro h; subst h; rfl
  · intro a n ha hn hrc
    subst ha
    unfold left_rotate
    simp only [optCase, run_bind, run_readNode, hn, hrc, run_pure]
  · intro a n ha hn hlc
    subst ha
    unfold right_rotate
    simp only [optCase, run_bind, run_readNode, hn, hlc, run_pure]

/-- Witness for C6 at a concrete input: node 1 of `stOneRed` is present and
is a leaf, so both rotations on it silently do nothing. -/
theorem C6_rotation_transplant_null_guards_witness :
    (left_rotate (some 1)).run stOneRed = .ok () stOneRed ∧
    (right_rotate (some 1)).run stOneRed = .ok () stOneRed :=
  ⟨(C6_rotation_transplant_null_guards stOneRed (some 1) none).2.2.2.1 1 _
      rfl rfl rfl,
   (C6_rotation_transplant_null_guards stOneRed (some 1) none).2.2.2.2 1 _
      rfl rfl rfl⟩

theorem run_getRoot (s : RBState) : getRoot.run s = .ok s.root s := rfl

theorem run_setRoot (r : Option Nat) (s : RBState) :
    (setRoot r).run s = .ok () { s with root := r } := rfl

theorem run_writeNode (a : Nat) (n : Node) (s : RBState) :
    (writeNode a n).run s = .ok () { s with heap := hupd s.heap a n } :=
  rfl

theorem hupd_same (h : Nat → Option Node) (a : Nat) (n : Node) :
    hupd h a n a = some n := by
  simp [hupd]

theorem hupd_other (h : Nat → Option Node) (a : Nat) (n : Node) {b : Nat}
    (hne : b ≠ a) : hupd h a n b = h b := by
  simp [hupd, hne]

theorem hupd_present (h : Nat → Option Node) (a : Nat) (n : Node) {b : Nat}
    (hb : h b ≠ none) : hupd h a n b ≠ none := by
  unfold hupd
  split
  · simp
  · exact hb

theorem setColor_colorAt {a : Nat} {c : COLOR} {s s' : RBState} {v : Unit}
    (h : (setColor a c).run s = .ok v s') : colorAt s' a = some c := by
  unfold setColor at h
  rcases run_bind_ok h with ⟨n, s1, h1, h2⟩
  rw [run_writeNode] at h2
  injection h2 with h3 h4
  rw [← h4]
  simp [colorAt, hupd]

/-- C9: the color discipline of `insert`.  On an empty tree the node becomes
root with the whole heap — in particular its caller-given color — untouched
(the early return at RedBlackTree.h lines 274–277).  On a non-empty tree the
splice phase (`insert_splice`, ending with `node->color = RED` at line 296)
leaves the new node RED in the intermediate state handed to `insert_fixup`,
whatever color the caller had stored, and `insert` is exactly that splice
followed by `insert_fixup`. -/
theorem C9_insert_color_discipline (st : RBState) (fuel : Nat) (a : Nat) :
    (st.root = none →
      (insert fuel (some a)).run st = .ok () { heap := st.heap, root := some a } ∧
      colorAt ((insert fuel (some a)).stateOf st) a = colorAt st a) ∧
    (∀ rt, st.root = some rt →
      ∀ nd s1, (insert_splice fuel (some a) rt).run st = .ok nd s1 →
        colorAt s1 nd = some RED ∧
        (insert fuel (some a)).run st = (insert_fixup fuel nd).run s1) := by
  constructor
  · intro hroot
    have hrun : (insert fuel (some a)).run st =
        .ok () { heap := st.heap, root := some a } := by
      unfold insert
      rw [run_bind, run_getRoot, hroot]
      simp only [optCase, run_setRoot]
    refine ⟨hrun, ?_⟩
    unfold M.stateOf
    rw [hrun]
    rfl
  · intro rt hroot nd s1 hsp
    refine ⟨?_, ?_⟩
    · unfold insert_splice at hsp
      rcases run_bind_ok hsp with ⟨a1, t1, h1, hsp⟩
      rcases run_bind_ok hsp with ⟨n1, t2, h2, hsp⟩
      rcases run_bind_ok hsp with ⟨tpl, t3, h3, hsp⟩
      rcases run_bind_ok hsp with ⟨u1, t4, h4, hsp⟩
      rcases run_bind_ok hsp with ⟨u2, t5, h5, hsp⟩
      rcases run_bind_ok hsp with ⟨u3, t6, h6, hsp⟩
      rw [run_pure] at hsp
      injection hsp with hv hs
      subst hv
      subst hs
      exact setColor_colorAt h6
    · unfold insert
      rw [run_bind, run_getRoot, hroot]
      simp only [optCase]
      rw [run_bind, hsp]

/-- `stOneRed` plus a fresh unlinked RED node at address 2 (key 15) about to
be inserted. -/
def stOneRedPlus : RBState :=
  { heap := fun a => if a = 2 then some (freshNode 15) else stOneRed.heap a,
    root := some 0 }

/-- Witness for C9 at concrete inputs: inserting into the empty tree leaves
node 0 with its caller-given color, and splicing node 2 into the non-empty
`stOneRedPlus` leaves it RED in the state handed to `insert_fixup`. -/
theorem C9_insert_color_discipline_witness :
    colorAt ((insert 20 (some 0)).stateOf stEmpty) 0 = colorAt stEmpty 0 ∧
    colorAt ((insert_splice 20 (some 2) 0).stateOf stOneRedPlus) 2 = some RED := by
  constructor
  · exact ((C9_insert_color_discipline stEmpty 20 0).1 rfl).2
  · exact ((C9_insert_color_discipline stOneRedPlus 20 2).2 0 rfl 2
      ((insert_splice 20 (some 2) 0).stateOf stOneRedPlus) (by rfl)).1

theorem run_bind_of_ok {x : M α} {f : α → M β} {s s1 : RBState} {a : α}
    (hx : x.run s = .ok a s1) : (x >>= f).run s = (f a).run s1 := by
  rw [run_bind, hx]

theorem run_readNode_some {a : Nat} {s : RBState} {n : Node}
    (h : s.heap a = some n) : (readNode a).run s = .ok n s := by
  rw [run_readNode, h]

/-! ## NoThrow for the navigation and deletion pipeline -/

theorem noThrow_minimum_loop (fuel : Nat) :
    ∀ o cp, NoThrow (minimum_loop fuel o cp) := by
  induction fuel with
  | zero =>
    intro o cp
    cases o with
    | none => exact noThrow_pure _
    | some c => exact noThrow_noFuel
  | succ f ih =>
    intro o cp
    cases o with
    | none => exact noThrow_pure _
    | some c => exact noThrow_bind (noThrow_readNode c) fun _ => ih _ _

theorem noThrow_maximum_loop (fuel : Nat) :
    ∀ o cp, NoThrow (maximum_loop fuel o cp) := by
  induction fuel with
  | zero =>
    intro o cp
    cases o with
    | none => exact noThrow_pure _
    | some c => exact noThrow_noFuel
  | succ f ih =>
    intro o cp
    cases o with
    | none => exact noThrow_pure _
    | some c => exact noThrow_bind (noThrow_readNode c) fun _ => ih _ _

theorem noThrow_successor_ascend (fuel : Nat) :
    ∀ cur p?, NoThrow (successor_ascend fuel cur p?) := by
  induction fuel with
  | zero =>
    intro cur p?
    cases p? with
    | none => exact noThrow_pure _
    | some p => exact noThrow_noFuel
  | succ f ih =>
    intro cur p?
    cases p? with
    | none => exact noThrow_pure _
    | some p =>
      exact noThrow_bind (noThrow_is_right_child cur) fun _ =>
        noThrow_iteM
          (noThrow_bind (noThrow_readNode p) fun n => ih _ _)
          (noThrow_pure _)

theorem noThrow_predecessor_ascend (fuel : Nat) :
    ∀ cur p?, NoThrow (predecessor_ascend fuel cur p?) := by
  induction fuel with
  | zero =>
    intro cur p?
    cases p? with
    | none => exact noThrow_pure _
    | some p => exact noThrow_noFuel
  | succ f ih =>
    intro cur p?
    cases p? with
    | none => exact noThrow_pure _
    | some p =>
      exact noThrow_bind (noThrow_is_left_child cur) fun _ =>
        noThrow_iteM
          (noThrow_bind (noThrow_readNode p) fun n => ih _ _)
          (noThrow_pure _)

theorem noThrow_successor (fuel a : Nat) : NoThrow (successor fuel (some a)) := by
  unfold successor
  simp only [optCase]
  exact noThrow_bind (noThrow_readNode a) fun n =>
    noThrow_optCase (noThrow_successor_ascend fuel a n.parent)
      (fun rc => noThrow_minimum_loop fuel (some rc) none)

theorem noThrow_predecessor (fuel a : Nat) :
    NoThrow (predecessor fuel (some a)) := by
  unfold predecessor
  simp only [optCase]
  exact noThrow_bind (noThrow_readNode a) fun n =>
    noThrow_optCase (noThrow_predecessor_ascend fuel a n.parent)
      (fun lc => noThrow_maximum_loop fuel (some lc) none)

theorem noThrow_guard3_left (w : Nat) : NoThrow (guard3_left w) :=
  noThrow_bind (noThrow_readNode w) fun _ =>
    noThrow_iteM
      (noThrow_bind (noThrow_readNode w) fun _ =>
        noThrow_optCase (noThrow_pure _) fun wl =>
          noThrow_bind (noThrow_readNode wl) fun _ =>
            noThrow_iteM
              (noThrow_bind (noThrow_readNode w) fun _ =>
                noThrow_optCase (noThrow_pure _) fun wr =>
                  noThrow_bind (noThrow_readNode wr) fun _ => noThrow_pure _)
              (noThrow_pure _))
      (noThrow_pure _)

theorem noThrow_guard4_left (w : Nat) : NoThrow (guard4_left w) :=
  noThrow_bind (noThrow_readNode w) fun _ =>
    noThrow_iteM
      (noThrow_bind (noThrow_readNode w) fun _ =>
        noThrow_optCase (noThrow_pure _) fun wr =>
          noThrow_bind (noThrow_readNode wr) fun _ => noThrow_pure _)
      (noThrow_pure _)

theorem noThrow_guard3_right (w : Nat) : NoThrow (guard3_right w) :=
  noThrow_bind (noThrow_readNode w) fun _ =>
    noThrow_iteM
      (noThrow_bind (noThrow_readNode w) fun _ =>
        noThrow_optCase (noThrow_pure _) fun wr =>
          noThrow_bind (noThrow_readNode wr) fun _ =>
            noThrow_iteM
              (noThrow_bind (noThrow_readNode w) fun _ =>
                noThrow_optCase (noThrow_pure _) fun wl =>
                  noThrow_bind (noThrow_readNode wl) fun _ => noThrow_pure _)
              (noThrow_pure _))
      (noThrow_pure _)

theorem noThrow_guard4_right (w : Nat) : NoThrow (guard4_right w) :=
  noThrow_bind (noThrow_readNode w) fun _ =>
    noThrow_iteM
      (noThrow_bind (noThrow_readNode w) fun _ =>
        noThrow_optCase (noThrow_pure _) fun wl =>
          noThrow_bind (noThrow_readNode wl) fun _ => noThrow_pure _)
      (noThrow_pure _)

theorem noThrow_delete_fixup_iter (nd : Nat) :
    NoThrow (delete_fixup_iter nd) := by
  unfold delete_fixup_iter
  refine noThrow_bind (noThrow_is_left_child nd) fun _ => ?_
  refine noThrow_iteM ?_ ?_
  · refine noThrow_bind (noThrow_readNode nd) fun n0 => ?_
    refine noThrow_bind (noThrow_derefAddr n0.parent) fun node_p => ?_
    refine noThrow_bind (noThrow_readNode node_p) fun pn => ?_
    refine noThrow_bind
      (noThrow_optCase (noThrow_pure _) fun w =>
        noThrow_bind (noThrow_readNode w) fun _ =>
          noThrow_iteM
            (noThrow_bind (noThrow_setColor w BLACK) fun _ =>
              noThrow_bind (noThrow_setColor node_p RED) fun _ =>
                noThrow_bind (noThrow_left_rotate node_p) fun _ =>
                  noThrow_bind (noThrow_readNode node_p) fun _ =>
                    noThrow_pure _)
            (noThrow_pure _)) fun w1 => ?_
    refine noThrow_optCase (noThrow_pure _) fun w => ?_
    refine noThrow_bind (noThrow_readNode w) fun _ => ?_
    refine noThrow_iteM
      (noThrow_bind (noThrow_setColor w RED) fun _ =>
        noThrow_bind (noThrow_readNode nd) fun _ => noThrow_pure _) ?_
    refine noThrow_bind (noThrow_guard3_left w) fun _ => ?_
    refine noThrow_iteM
      (noThrow_bind (noThrow_readNode w) fun z =>
        noThrow_bind (noThrow_derefAddr z.lchild) fun wl =>
          noThrow_bind (noThrow_setColor wl BLACK) fun _ =>
            noThrow_bind (noThrow_setColor w RED) fun _ =>
              noThrow_bind (noThrow_right_rotate w) fun _ =>
                noThrow_bind (noThrow_readNode nd) fun z2 =>
                  noThrow_bind (noThrow_derefAddr z2.parent) fun np2 =>
                    noThrow_bind (noThrow_readNode np2) fun _ =>
                      noThrow_pure _) ?_
    refine noThrow_bind (noThrow_guard4_left w) fun _ => ?_
    refine noThrow_iteM ?_ (noThrow_pure _)
    refine noThrow_bind (noThrow_readNode nd) fun z3 => ?_
    refine noThrow_bind (noThrow_derefAddr z3.parent) fun np2 => ?_
    refine noThrow_bind (noThrow_readNode np2) fun _ => ?_
    refine noThrow_bind (noThrow_setColor w _) fun _ => ?_
    refine noThrow_bind (noThrow_setColor np2 BLACK) fun _ => ?_
    refine noThrow_bind (noThrow_readNode w) fun z4 => ?_
    refine noThrow_bind (noThrow_derefAddr z4.rchild) fun wr => ?_
    refine noThrow_bind (noThrow_setColor wr BLACK) fun _ => ?_
    exact noThrow_bind (noThrow_left_rotate np2) fun _ => noThrow_getRoot
  · refine noThrow_bind (noThrow_readNode nd) fun n0 => ?_
    refine noThrow_bind (noThrow_derefAddr n0.parent) fun node_p => ?_
    refine noThrow_bind (noThrow_readNode node_p) fun pn => ?_
    refine noThrow_bind
      (noThrow_optCase (noThrow_pure _) fun w =>
        noThrow_bind (noThrow_readNode w) fun _ =>
          noThrow_iteM
            (noThrow_bind (noThrow_setColor w BLACK) fun _ =>
              noThrow_bind (noThrow_setColor node_p RED) fun _ =>
                noThrow_bind (noThrow_right_rotate node_p) fun _ =>
                  noThrow_pure _)
            (noThrow_pure _)) fun w1 => ?_
    refine noThrow_optCase (noThrow_pure _) fun w => ?_
    refine noThrow_bind (noThrow_readNode w) fun _ => ?_
    refine noThrow_iteM
      (noThrow_bind (noThrow_setColor w RED) fun _ =>
        noThrow_bind (noThrow_readNode nd) fun _ => noThrow_pure _) ?_
    refine noThrow_bind (noThrow_guard3_right w) fun _ => ?_
    refine noThrow_iteM
      (noThrow_bind (noThrow_readNode w) fun z =>
        noThrow_bind (noThrow_derefAddr z.rchild) fun wr =>
          noThrow_bind (noThrow_setColor wr BLACK) fun _ =>
            noThrow_bind (noThrow_setColor w RED) fun _ =>
              noThrow_bind (noThrow_left_rotate w) fun _ =>
                noThrow_bind (noThrow_readNode nd) fun z2 =>
                  noThrow_bind (noThrow_derefAddr z2.parent) fun np2 =>
                    noThrow_bind (noThrow_readNode np2) fun _ =>
                      noThrow_pure _) ?_
    refine noThrow_bind (noThrow_guard4_right w) fun _ => ?_
    refine noThrow_iteM ?_ (noThrow_pure _)
    refine noThrow_bind (noThrow_readNode nd) fun z3 => ?_
    refine noThrow_bind (noThrow_derefAddr z3.parent) fun np2 => ?_
    refine noThrow_bind (noThrow_readNode np2) fun _ => ?_
    refine noThrow_bind (noThrow_setColor w _) fun _ => ?_
    refine noThrow_bind (noThrow_setColor np2 BLACK) fun _ => ?_
    refine noThrow_bind (noThrow_readNode w) fun z4 => ?_
    refine noThrow_bind (noThrow_derefAddr z4.lchild) fun wl => ?_
    refine noThrow_bind (noThrow_setColor wl BLACK) fun _ => ?_
    exact noThrow_bind (noThrow_right_rotate np2) fun _ => noThrow_getRoot

theorem noThrow_delete_fixup_loop (fuel : Nat) :
    ∀ node, NoThrow (delete_fixup_loop fuel node) := by
  induction fuel with
  | zero => intro node; exact noThrow_noFuel
  | succ f ih =>
    intro node
    refine noThrow_bind noThrow_getRoot fun r => ?_
    refine noThrow_iteM (noThrow_pure _) ?_
    refine noThrow_optCase (noThrow_pure _) fun nd => ?_
    refine noThrow_bind (noThrow_readNode nd) fun _ => ?_
    refine noThrow_iteM ?_ (noThrow_pure _)
    exact noThrow_bind (noThrow_delete_fixup_iter nd) fun node2 => ih node2


theorem noThrow_delete_fixup (fuel : Nat) (node : Option Nat) :
    NoThrow (delete_fixup fuel node) :=
  noThrow_bind (noThrow_delete_fixup_loop fuel node) fun _ =>
    noThrow_optCase (noThrow_pure _) fun nd => noThrow_setColor nd BLACK

theorem noThrow_remove_surgery (fuel nd : Nat) :
    NoThrow (remove_surgery fuel nd) := by
  unfold remove_surgery
  refine noThrow_bind (noThrow_readNode nd) fun n => ?_
  refine noThrow_bind ?_ fun xy =>
    noThrow_iteM
      (noThrow_bind (noThrow_delete_fixup fuel xy.1) fun _ => noThrow_pure _)
      (noThrow_pure _)
  refine noThrow_optCase ?_ fun lc => ?_
  · refine noThrow_optCase ?_ fun rc => ?_
    · refine noThrow_bind
        (noThrow_optCase (noThrow_setRoot none) fun p =>
          noThrow_bind (noThrow_is_left_child nd) fun _ =>
            noThrow_bind (noThrow_whenB (noThrow_setLchild p none)) fun _ =>
              noThrow_bind (noThrow_is_right_child nd) fun _ =>
                noThrow_whenB (noThrow_setRchild p none)) fun _ => noThrow_pure _
    · exact noThrow_bind (noThrow_transplant nd (some rc)) fun _ =>
        noThrow_pure _
  · refine noThrow_optCase
      (noThrow_bind (noThrow_transplant nd (some lc)) fun _ =>
        noThrow_pure _) fun rc => ?_
    refine noThrow_bind (noThrow_successor fuel nd) fun y? => ?_
    refine noThrow_bind (noThrow_derefAddr y?) fun y => ?_
    refine noThrow_bind (noThrow_readNode y) fun yn => ?_
    refine noThrow_bind (noThrow_readNode nd) fun z0 => ?_
    refine noThrow_bind
      (noThrow_whenB
        (noThrow_bind (noThrow_readNode y) fun z1 =>
          noThrow_bind (noThrow_transplant y z1.rchild) fun _ =>
            noThrow_bind (noThrow_readNode nd) fun z2 =>
              noThrow_bind (noThrow_setRchild y z2.rchild) fun _ =>
                noThrow_bind (noThrow_readNode nd) fun z3 =>
                  noThrow_bind (noThrow_derefAddr z3.rchild) fun rc2 =>
                    noThrow_bind (noThrow_setParent rc2 (some y)) fun _ =>
                      noThrow_setRchild nd (some y))) fun _ => ?_
    refine noThrow_bind (noThrow_transplant nd (some y)) fun _ => ?_
    refine noThrow_bind (noThrow_readNode nd) fun z4 => ?_
    refine noThrow_bind (noThrow_setLchild y z4.lchild) fun _ => ?_
    refine noThrow_bind (noThrow_readNode nd) fun z5 => ?_
    refine noThrow_bind (noThrow_derefAddr z5.lchild) fun lc2 => ?_
    refine noThrow_bind (noThrow_setParent lc2 (some y)) fun _ => ?_
    refine noThrow_bind (noThrow_readNode nd) fun z6 => ?_
    exact noThrow_bind (noThrow_setColor y z6.color) fun _ => noThrow_pure _

/-! ## Agreement of the membership descent with its pure counterpart -/

theorem remove_find_agrees (fuel : Nat) :
    ∀ (temp : Option Nat) (nd : Nat) (s : RBState) (b : Bool),
      findsByKey fuel s.heap temp nd = some b →
      (remove_find fuel nd temp).run s = .ok b s := by
  induction fuel with
  | zero =>
    intro temp nd s b h
    cases temp with
    | none => cases h; rfl
    | some t => cases h
  | succ f ih =>
    intro temp nd s b h
    cases temp with
    | none => cases h; rfl
    | some t =>
      simp only [findsByKey] at h
      by_cases ht : t = nd
      · subst ht
        rw [if_pos rfl] at h
        injection h with hb
        subst hb
        show (iteM (t == t) (M.pure true) _).run s = .ok true s
        simp [iteM, run_pure]
      · rw [if_neg ht] at h
        have hbeq : (t == nd) = false := by
          simp [ht]
        show (iteM (t == nd) (M.pure true) _).run s = .ok b s
        rw [show iteM (t == nd) (M.pure true)
          (do
            let nn ← readNode nd
            let tn ← readNode t
            iteM (decide (nn.key < tn.key))
              (remove_find f nd tn.lchild)
              (remove_find f nd tn.rchild)) = (do
            let nn ← readNode nd
            let tn ← readNode t
            iteM (decide (nn.key < tn.key))
              (remove_find f nd tn.lchild)
              (remove_find f nd tn.rchild)) from by simp [iteM, hbeq]]
        cases hnd : s.heap nd with
        | none =>
          rw [hnd] at h
          cases hn2 : s.heap t <;> rw [hn2] at h <;> cases h
        | some an =>
          cases hn2 : s.heap t with
          | none => rw [hnd, hn2] at h; cases h
          | some tn =>
            rw [hnd, hn2] at h
            have h2 : (if an.key < tn.key then findsByKey f s.heap tn.lchild nd
                else findsByKey f s.heap tn.rchild nd) = some b := h
            rw [run_bind_of_ok (run_readNode_some hnd),
                run_bind_of_ok (run_readNode_some hn2)]
            by_cases hk : an.key < tn.key
            · rw [if_pos hk] at h2
              have := ih tn.lchild nd s b h2
              simpa [iteM, hk] using this
            · rw [if_neg hk] at h2
              have := ih tn.rchild nd s b h2
              simpa [iteM, hk] using this

/-- C5: the membership contract of `remove`.  If the key-guided descent from
the current root does not reach the argument node (`findsByKey` says
`false`), `remove` raises the invalid-argument failure (`Err.notInTree`)
with the state exactly as it was — the check precedes every mutation.  If
the descent does reach the node, `remove` never raises: any failure the
model can still produce is an undefined-behaviour or fuel artefact, not a
C++ throw. -/
theorem C5_remove_membership_contract (st : RBState) (a : Nat) (fuel : Nat) :
    (findsByKey fuel st.heap st.root a = some false →
      (remove fuel (some a)).run st = .err Err.notInTree st) ∧
    (findsByKey fuel st.heap st.root a = some true →
      ∀ e s', (remove fuel (some a)).run st = .err e s' →
        e = Err.nullDeref ∨ e = Err.noFuel) := by
  constructor
  · intro h
    unfold remove
    simp only [optCase]
    rw [run_bind_of_ok (run_getRoot st),
        run_bind_of_ok (remove_find_agrees fuel st.root a st false h)]
    rfl
  · intro h e s' hrun
    unfold remove at hrun
    simp only [optCase] at hrun
    rw [run_bind_of_ok (run_getRoot st),
        run_bind_of_ok (remove_find_agrees fuel st.root a st true h)] at hrun
    exact noThrow_remove_surgery fuel a _ _ _ hrun

/-- Witness for C5 at concrete inputs: node 1 is not reachable in `stEmpty`
(the tree is empty), so `remove` raises `notInTree` leaving the state
untouched; node 0 is reachable in `stOneRed`, and `remove` indeed runs
without raising (it returns successfully, so the no-raise implication holds
with no error to exhibit). -/
theorem C5_remove_membership_contract_witness :
    (remove 20 (some 1)).run stEmpty = .err Err.notInTree stEmpty ∧
    (∀ e s', (remove 20 (some 0)).run stOneRed = .err e s' →
      e = Err.nullDeref ∨ e = Err.noFuel) :=
  ⟨(C5_remove_membership_contract stEmpty 1 20).1 (by decide),
   (C5_remove_membership_contract stOneRed 0 20).2 (by decide)⟩

/-! ## Navigation agreement with the spec (claim C7) -/

theorem run_peek (p : Nat) (s : RBState) : (peek p).run s = .ok (s.heap p) s :=
  rfl

theorem iteM_true (t e : M α) : iteM true t e = t := rfl

theorem iteM_false (t e : M α) : iteM false t e = e := rfl

theorem run_is_right_child_some {st : RBState} {a n p pn}
    (ha : st.heap a = some n) (hpar : n.parent = some p)
    (hpn : st.heap p = some pn) :
    (is_right_child a).run st = .ok (pn.rchild == some a) st := by
  unfold is_right_child
  rw [run_bind_of_ok (run_readNode_some ha), hpar]
  simp only [optCase]
  rw [run_bind_of_ok (run_peek p st), hpn]
  rfl

theorem run_is_left_child_some {st : RBState} {a n p pn}
    (ha : st.heap a = some n) (hpar : n.parent = some p)
    (hpn : st.heap p = some pn) :
    (is_left_child a).run st = .ok (pn.lchild == some a) st := by
  unfold is_left_child
  rw [run_bind_of_ok (run_readNode_some ha), hpar]
  simp only [optCase]
  rw [run_bind_of_ok (run_peek p st), hpn]
  rfl

theorem successor_ascend_agrees {st : RBState}
    (hp : ParentCoherent st.heap) :
    ∀ (fuel : Nat) (a : Nat) (n : Node) (r : Option Nat),
      st.heap a = some n →
      ascendRightSpec fuel st.heap a = some r →
      (successor_ascend fuel a n.parent).run st = .ok r st := by
  intro fuel
  induction fuel with
  | zero => intro a n r ha hspec; cases hspec
  | succ f ih =>
    intro a n r ha hspec
    simp only [ascendRightSpec] at hspec
    rw [ha] at hspec
    have hspec2 : (match n.parent with
        | none => some none
        | some p =>
          match st.heap p with
          | none => none
          | some pn =>
            if pn.rchild = some a then ascendRightSpec f st.heap p
            else if pn.lchild = some a then some (some p)
            else some none) = some r := hspec
    clear hspec
    cases hpar : n.parent with
    | none =>
      rw [hpar] at hspec2
      injection hspec2 with hr
      subst hr
      rfl
    | some p =>
      rw [hpar] at hspec2
      have hspec3 : (match st.heap p with
          | none => none
          | some pn =>
            if pn.rchild = some a then ascendRightSpec f st.heap p
            else if pn.lchild = some a then some (some p)
            else some none) = some r := hspec2
      clear hspec2
      cases hpn : st.heap p with
      | none => rw [hpn] at hspec3; cases hspec3
      | some pn =>
        rw [hpn] at hspec3
        have hspec4 : (if pn.rchild = some a then ascendRightSpec f st.heap p
            else if pn.lchild = some a then some (some p)
            else some none) = some r := hspec3
        clear hspec3
        show (successor_ascend (f+1) a (some p)).run st = .ok r st
        simp only [successor_ascend]
        rw [run_bind_of_ok (run_is_right_child_some ha hpar hpn)]
        by_cases hrc : pn.rchild = some a
        · rw [if_pos hrc] at hspec4
          have hbeq : (pn.rchild == some a) = true := by simp [hrc]
          rw [hbeq, iteM_true]
          rw [run_bind_of_ok (run_readNode_some hpn)]
          exact ih p pn r hpn hspec4
        · rw [if_neg hrc] at hspec4
          have hlc : pn.lchild = some a := by
            rcases hp a n p pn ha hpar hpn with h1 | h1
            · exact h1
            · exact absurd h1 hrc
          rw [if_pos hlc] at hspec4
          injection hspec4 with hr
          subst hr
          have hbeq : (pn.rchild == some a) = false := by simp [hrc]
          rw [hbeq, iteM_false]
          rfl

theorem predecessor_ascend_agrees {st : RBState}
    (hp : ParentCoherent st.heap) :
    ∀ (fuel : Nat) (a : Nat) (n : Node) (r : Option Nat),
      st.heap a = some n →
      ascendLeftSpec fuel st.heap a = some r →
      (predecessor_ascend fuel a n.parent).run st = .ok r st := by
  intro fuel
  induction fuel with
  | zero => intro a n r ha hspec; cases hspec
  | succ f ih =>
    intro a n r ha hspec
    simp only [ascendLeftSpec] at hspec
    rw [ha] at hspec
    have hspec2 : (match n.parent with
        | none => some none
        | some p =>
          match st.heap p with
          | none => none
          | some pn =>
            if pn.lchild = some a then ascendLeftSpec f st.heap p
            else if pn.rchild = some a then some (some p)
            else some none) = some r := hspec
    clear hspec
    cases hpar : n.parent with
    | none =>
      rw [hpar] at hspec2
      injection hspec2 with hr
      subst hr
      rfl
    | some p =>
      rw [hpar] at hspec2
      have hspec3 : (match st.heap p with
          | none => none
          | some pn =>
            if pn.lchild = some a then ascendLeftSpec f st.heap p
            else if pn.rchild = some a then some (some p)
            else some none) = some r := hspec2
      clear hspec2
      cases hpn : st.heap p with
      | none => rw [hpn] at hspec3; cases hspec3
      | some pn =>
        rw [hpn] at hspec3
        have hspec4 : (if pn.lchild = some a then ascendLeftSpec f st.heap p
            else if pn.rchild = some a then some (some p)
            else some none) = some r := hspec3
        clear hspec3
        show (predecessor_ascend (f+1) a (some p)).run st = .ok r st
        simp only [predecessor_ascend]
        rw [run_bind_of_ok (run_is_left_child_some ha hpar hpn)]
        by_cases hlc : pn.lchild = some a
        · rw [if_pos hlc] at hspec4
          have hbeq : (pn.lchild == some a) = true := by simp [hlc]
          rw [hbeq, iteM_true]
          rw [run_bind_of_ok (run_readNode_some hpn)]
          exact ih p pn r hpn hspec4
        · rw [if_neg hlc] at hspec4
          have hrc : pn.rchild = some a := by
            rcases hp a n p pn ha hpar hpn with h1 | h1
            · exact absurd h1 hlc
            · exact h1
          rw [if_pos hrc] at hspec4
          injection hspec4 with hr
          subst hr
          have hbeq : (pn.lchild == some a) = false := by simp [hlc]
          rw [hbeq, iteM_false]
          rfl

/-- C7: for a present node in a parent-coherent heap, `successor`
returns `minimum(node.rchild)` when the right child is present, and
otherwise exactly the spec's first-left-step ancestor (`ascendRightSpec`),
absent when no such ancestor exists; `predecessor` is the mirror via
`maximum` and `ascendLeftSpec`. -/
theorem C7_successor_predecessor_navigation (st : RBState) (a : Nat) (n : Node)
    (fuel : Nat) (hp : ParentCoherent st.heap)
    (ha : st.heap a = some n) :
    (∀ rc, n.rchild = some rc →
      (successor fuel (some a)).run st = (minimum fuel (some rc)).run st) ∧
    (n.rchild = none → ∀ r, ascendRightSpec fuel st.heap a = some r →
      (successor fuel (some a)).run st = .ok r st) ∧
    (∀ lc, n.lchild = some lc →
      (predecessor fuel (some a)).run st = (maximum fuel (some lc)).run st) ∧
    (n.lchild = none → ∀ r, ascendLeftSpec fuel st.heap a = some r →
      (predecessor fuel (some a)).run st = .ok r st) := by
  refine ⟨?_, ?_, ?_, ?_⟩
  · intro rc hrc
    unfold successor
    simp only [optCase]
    rw [run_bind_of_ok (run_readNode_some ha), hrc]
  · intro hrc r hspec
    unfold successor
    simp only [optCase]
    rw [run_bind_of_ok (run_readNode_some ha), hrc]
    exact successor_ascend_agrees hp fuel a n r ha hspec
  · intro lc hlc
    unfold predecessor
    simp only [optCase]
    rw [run_bind_of_ok (run_readNode_some ha), hlc]
  · intro hlc r hspec
    unfold predecessor
    simp only [optCase]
    rw [run_bind_of_ok (run_readNode_some ha), hlc]
    exact predecessor_ascend_agrees hp fuel a n r ha hspec

/-- A three-node search tree for exercising the navigation queries: BLACK
root 0 (key 2) with RED children 1 (key 1) and 2 (key 3). -/
def stNav : RBState :=
  { heap := fun a =>
      if a = 0 then
        some { key := 2, color := BLACK, lchild := some 1, rchild := some 2,
               parent := none }
      else if a = 1 then
        some { key := 1, color := RED, lchild := none, rchild := none,
               parent := some 0 }
      else if a = 2 then
        some { key := 3, color := RED, lchild := none, rchild := none,
               parent := some 0 }
      else none,
    root := some 0 }

theorem stNav_parentCoherent : ParentCoherent stNav.heap := by
  intro a n p pn ha hpar hpn
  rcases a with _ | _ | _ | a4
  · simp only [stNav, if_pos rfl] at ha
    injection ha with hn
    rw [← hn] at hpar
    cases hpar
  · simp only [stNav] at ha
    norm_num at ha
    rw [← ha] at hpar
    injection hpar with hpe
    rw [← hpe] at hpn
    simp only [stNav, if_pos rfl] at hpn
    injection hpn with hpn2
    rw [← hpn2]
    exact Or.inl rfl
  · simp only [stNav] at ha
    norm_num at ha
    rw [← ha] at hpar
    injection hpar with hpe
    rw [← hpe] at hpn
    simp only [stNav, if_pos rfl] at hpn
    injection hpn with hpn2
    rw [← hpn2]
    exact Or.inr rfl
  · simp only [stNav] at ha
    norm_num at ha
    exact absurd ha.1 (by omega)

/-- Witness for C7 at concrete inputs over `stNav`: `successor(0)` equals
`minimum` of the right subtree, `successor(1)` climbs to the ancestor 0, and
`predecessor(1)` is absent (key 1 is the minimum). -/
theorem C7_successor_predecessor_navigation_witness :
    (successor 20 (some 0)).run stNav = (minimum 20 (some 2)).run stNav ∧
    (successor 20 (some 1)).run stNav = .ok (some 0) stNav ∧
    (predecessor 20 (some 1)).run stNav = .ok none stNav :=
  ⟨(C7_successor_predecessor_navigation stNav 0 _ 20
      stNav_parentCoherent rfl).1 2 rfl,
   (C7_successor_predecessor_navigation stNav 1 _ 20
      stNav_parentCoherent rfl).2.1 rfl (some 0) (by decide),
   (C7_successor_predecessor_navigation stNav 1 _ 20
      stNav_parentCoherent rfl).2.2.2 rfl none (by decide)⟩

/-! ## Effect and frame lemmas for the primitives (used for claim C10) -/

theorem pure_ok {α : Type} {a v : α} {s s' : RBState}
    (h : (M.pure a).run s = .ok v s') : v = a ∧ s' = s := by
  injection h with h1 h2
  exact ⟨h1.symm, h2.symm⟩

theorem readNode_ok {a : Nat} {s s' : RBState} {n : Node}
    (h : (readNode a).run s = .ok n s') : s.heap a = some n ∧ s' = s := by
  have h' : (match s.heap a with
      | some x => MRes.ok x s
      | none => MRes.err Err.nullDeref s) = MRes.ok n s' := h
  cases hh : s.heap a with
  | some x =>
    rw [hh] at h'
    injection h' with h1 h2
    exact ⟨by rw [h1], h2.symm⟩
  | none => rw [hh] at h'; cases h'

theorem peek_ok {p : Nat} {s s' : RBState} {v : Option Node}
    (h : (peek p).run s = .ok v s') : v = s.heap p ∧ s' = s := by
  injection h with h1 h2
  exact ⟨h1.symm, h2.symm⟩

theorem getRoot_ok {s s' : RBState} {r : Option Nat}
    (h : getRoot.run s = .ok r s') : r = s.root ∧ s' = s := by
  injection h with h1 h2
  exact ⟨h1.symm, h2.symm⟩

theorem setRoot_ok {r : Option Nat} {s s' : RBState} {u : Unit}
    (h : (setRoot r).run s = .ok u s') : s' = { s with root := r } := by
  injection h with _ h2
  exact h2.symm

theorem derefAddr_ok {a? : Option Nat} {s s' : RBState} {a : Nat}
    (h : (derefAddr a?).run s = .ok a s') : a? = some a ∧ s' = s := by
  cases a? with
  | some b =>
    injection h with h1 h2
    exact ⟨by rw [h1], h2.symm⟩
  | none => cases h

theorem setColor_ok {b : Nat} {c : COLOR} {s s' : RBState} {u : Unit}
    (h : (setColor b c).run s = .ok u s') :
    ∃ nb, s.heap b = some nb ∧
      s' = { s with heap := hupd s.heap b { nb with color := c } } := by
  unfold setColor at h
  rcases run_bind_ok h with ⟨nb, s1, h1, h2⟩
  obtain ⟨hb, rfl⟩ := readNode_ok h1
  rw [run_writeNode] at h2
  injection h2 with _ h4
  exact ⟨nb, hb, h4.symm⟩

theorem setLchild_ok {b : Nat} {v : Option Nat} {s s' : RBState} {u : Unit}
    (h : (setLchild b v).run s = .ok u s') :
    ∃ nb, s.heap b = some nb ∧
      s' = { s with heap := hupd s.heap b { nb with lchild := v } } := by
  unfold setLchild at h
  rcases run_bind_ok h with ⟨nb, s1, h1, h2⟩
  obtain ⟨hb, rfl⟩ := readNode_ok h1
  rw [run_writeNode] at h2
  injection h2 with _ h4
  exact ⟨nb, hb, h4.symm⟩

theorem setRchild_ok {b : Nat} {v : Option Nat} {s s' : RBState} {u : Unit}
    (h : (setRchild b v).run s = .ok u s') :
    ∃ nb, s.heap b = some nb ∧
      s' = { s with heap := hupd s.heap b { nb with rchild := v } } := by
  unfold setRchild at h
  rcases run_bind_ok h with ⟨nb, s1, h1, h2⟩
  obtain ⟨hb, rfl⟩ := readNode_ok h1
  rw [run_writeNode] at h2
  injection h2 with _ h4
  exact ⟨nb, hb, h4.symm⟩

theorem setParent_ok {b : Nat} {v : Option Nat} {s s' : RBState} {u : Unit}
    (h : (setParent b v).run s = .ok u s') :
    ∃ nb, s.heap b = some nb ∧
      s' = { s with heap := hupd s.heap b { nb with parent := v } } := by
  unfold setParent at h
  rcases run_bind_ok h with ⟨nb, s1, h1, h2⟩
  obtain ⟨hb, rfl⟩ := readNode_ok h1
  rw [run_writeNode] at h2
  injection h2 with _ h4
  exact ⟨nb, hb, h4.symm⟩

theorem is_left_child_ok {a : Nat} {s s' : RBState} {b : Bool}
    (h : (is_left_child a).run s = .ok b s') : s' = s := by
  unfold is_left_child at h
  rcases run_bind_ok h with ⟨n, s1, h1, h2⟩
  obtain ⟨-, rfl⟩ := readNode_ok h1
  cases hp : n.parent with
  | none =>
    rw [hp] at h2
    simp only [optCase] at h2
    exact (pure_ok h2).2
  | some p =>
    rw [hp] at h2
    simp only [optCase] at h2
    rcases run_bind_ok h2 with ⟨pn?, s2, h3, h4⟩
    obtain ⟨-, rfl⟩ := peek_ok h3
    cases pn? with
    | none => exact (pure_ok h4).2
    | some pn => exact (pure_ok h4).2

theorem is_right_child_ok {a : Nat} {s s' : RBState} {b : Bool}
    (h : (is_right_child a).run s = .ok b s') : s' = s := by
  unfold is_right_child at h
  rcases run_bind_ok h with ⟨n, s1, h1, h2⟩
  obtain ⟨-, rfl⟩ := readNode_ok h1
  cases hp : n.parent with
  | none =>
    rw [hp] at h2
    simp only [optCase] at h2
    exact (pure_ok h2).2
  | some p =>
    rw [hp] at h2
    simp only [optCase] at h2
    rcases run_bind_ok h2 with ⟨pn?, s2, h3, h4⟩
    obtain ⟨-, rfl⟩ := peek_ok h3
    cases pn? with
    | none => exact (pure_ok h4).2
    | some pn => exact (pure_ok h4).2

theorem setLchild_heapFrame {b : Nat} {v : Option Nat} {s s' : RBState}
    {u : Unit} {q : Nat} (h : (setLchild b v).run s = .ok u s') (hne : q ≠ b) :
    s'.heap q = s.heap q := by
  obtain ⟨nb, hb, rfl⟩ := setLchild_ok h
  exact hupd_other _ _ _ hne

theorem setRchild_heapFrame {b : Nat} {v : Option Nat} {s s' : RBState}
    {u : Unit} {q : Nat} (h : (setRchild b v).run s = .ok u s') (hne : q ≠ b) :
    s'.heap q = s.heap q := by
  obtain ⟨nb, hb, rfl⟩ := setRchild_ok h
  exact hupd_other _ _ _ hne

theorem setParent_heapFrame {b : Nat} {v : Option Nat} {s s' : RBState}
    {u : Unit} {q : Nat} (h : (setParent b v).run s = .ok u s') (hne : q ≠ b) :
    s'.heap q = s.heap q := by
  obtain ⟨nb, hb, rfl⟩ := setParent_ok h
  exact hupd_other _ _ _ hne

theorem setColor_heapFrame {b : Nat} {c : COLOR} {s s' : RBState}
    {u : Unit} {q : Nat} (h : (setColor b c).run s = .ok u s') (hne : q ≠ b) :
    s'.heap q = s.heap q := by
  obtain ⟨nb, hb, rfl⟩ := setColor_ok h
  exact hupd_other _ _ _ hne

theorem setLchild_colorFrame {b : Nat} {v : Option Nat} {s s' : RBState}
    {u : Unit} (h : (setLchild b v).run s = .ok u s') (q : Nat) :
    colorAt s' q = colorAt s q := by
  obtain ⟨nb, hb, rfl⟩ := setLchild_ok h
  by_cases hq : q = b
  · subst hq
    simp [colorAt, hupd_same, hb]
  · simp [colorAt, hupd_other _ _ _ hq]

theorem setRchild_colorFrame {b : Nat} {v : Option Nat} {s s' : RBState}
    {u : Unit} (h : (setRchild b v).run s = .ok u s') (q : Nat) :
    colorAt s' q = colorAt s q := by
  obtain ⟨nb, hb, rfl⟩ := setRchild_ok h
  by_cases hq : q = b
  · subst hq
    simp [colorAt, hupd_same, hb]
  · simp [colorAt, hupd_other _ _ _ hq]

theorem setParent_colorFrame {b : Nat} {v : Option Nat} {s s' : RBState}
    {u : Unit} (h : (setParent b v).run s = .ok u s') (q : Nat) :
    colorAt s' q = colorAt s q := by
  obtain ⟨nb, hb, rfl⟩ := setParent_ok h
  by_cases hq : q = b
  · subst hq
    simp [colorAt, hupd_same, hb]
  · simp [colorAt, hupd_other _ _ _ hq]

theorem setColor_colorFrame {b : Nat} {c : COLOR} {s s' : RBState}
    {u : Unit} {q : Nat} (h : (setColor b c).run s = .ok u s') (hne : q ≠ b) :
    colorAt s' q = colorAt s q := by
  obtain ⟨nb, hb, rfl⟩ := setColor_ok h
  simp [colorAt, hupd_other _ _ _ hne]

theorem setLchild_present {b : Nat} {v : Option Nat} {s s' : RBState}
    {u : Unit} {q : Nat} (h : (setLchild b v).run s = .ok u s')
    (hq : s.heap q ≠ none) : s'.heap q ≠ none := by
  obtain ⟨nb, hb, rfl⟩ := setLchild_ok h
  exact hupd_present _ _ _ hq

theorem setRchild_present {b : Nat} {v : Option Nat} {s s' : RBState}
    {u : Unit} {q : Nat} (h : (setRchild b v).run s = .ok u s')
    (hq : s.heap q ≠ none) : s'.heap q ≠ none := by
  obtain ⟨nb, hb, rfl⟩ := setRchild_ok h
  exact hupd_present _ _ _ hq

theorem setParent_present {b : Nat} {v : Option Nat} {s s' : RBState}
    {u : Unit} {q : Nat} (h : (setParent b v).run s = .ok u s')
    (hq : s.heap q ≠ none) : s'.heap q ≠ none := by
  obtain ⟨nb, hb, rfl⟩ := setParent_ok h
  exact hupd_present _ _ _ hq

theorem setColor_present {b : Nat} {c : COLOR} {s s' : RBState}
    {u : Unit} {q : Nat} (h : (setColor b c).run s = .ok u s')
    (hq : s.heap q ≠ none) : s'.heap q ≠ none := by
  obtain ⟨nb, hb, rfl⟩ := setColor_ok h
  exact hupd_present _ _ _ hq

/-! ## Transplant analysis (used for claim C10) -/

theorem whenB_true (act : M Unit) : whenB true act = act := rfl

theorem whenB_false (act : M Unit) : whenB false act = M.pure () := rfl

theorem optCase_none {γ α : Type} (n : M α) (f : γ → M α) :
    optCase none n f = n := rfl

theorem optCase_some {γ α : Type} (x : γ) (n : M α) (f : γ → M α) :
    optCase (some x) n f = f x := rfl

theorem transplant_heapFrame {uu : Nat} {v : Option Nat} {s s' : RBState}
    {x : Unit} {q : Nat} (h : (transplant (some uu) v).run s = .ok x s')
    (hpar : ∀ un, s.heap uu = some un → ∀ p, un.parent = some p → p ≠ q)
    (hv : v ≠ some q) :
    s'.heap q = s.heap q := by
  unfold transplant at h
  rw [optCase_some] at h
  rcases run_bind_ok h with ⟨un, s1, h1, h2⟩
  obtain ⟨hu, hs1⟩ := readNode_ok h1
  rw [hs1] at h2
  rcases run_bind_ok h2 with ⟨u2, s2, h3, h4⟩
  have hs2 : s2.heap q = s.heap q := by
    cases hp : un.parent with
    | none =>
      rw [hp, optCase_none] at h3
      rw [setRoot_ok h3]
    | some p =>
      have hpq : p ≠ q := hpar un hu p hp
      rw [hp, optCase_some] at h3
      rcases run_bind_ok h3 with ⟨b, s3, h5, h6⟩
      rw [is_left_child_ok h5] at h6
      cases b with
      | true =>
        rw [iteM_true] at h6
        exact setLchild_heapFrame h6 (fun hqq => hpq hqq.symm)
      | false =>
        rw [iteM_false] at h6
        rcases run_bind_ok h6 with ⟨b2, s4, h7, h8⟩
        rw [is_right_child_ok h7] at h8
        cases b2 with
        | true =>
          rw [whenB_true] at h8
          exact setRchild_heapFrame h8 (fun hqq => hpq hqq.symm)
        | false =>
          rw [whenB_false] at h8
          obtain ⟨-, hs⟩ := pure_ok h8
          rw [hs]
  cases v with
  | none =>
    rw [optCase_none] at h4
    obtain ⟨-, hs⟩ := pure_ok h4
    rw [← hs] at hs2
    exact hs2
  | some vv =>
    rw [optCase_some] at h4
    have hvq : q ≠ vv := fun hh => hv (by rw [hh])
    rw [setParent_heapFrame h4 hvq]
    exact hs2

theorem transplant_colorFrame {uu : Nat} {v : Option Nat} {s s' : RBState}
    {x : Unit} (h : (transplant (some uu) v).run s = .ok x s') (q : Nat) :
    colorAt s' q = colorAt s q := by
  unfold transplant at h
  rw [optCase_some] at h
  rcases run_bind_ok h with ⟨un, s1, h1, h2⟩
  obtain ⟨hu, hs1⟩ := readNode_ok h1
  rw [hs1] at h2
  rcases run_bind_ok h2 with ⟨u2, s2, h3, h4⟩
  have hs2 : colorAt s2 q = colorAt s q := by
    cases hp : un.parent with
    | none =>
      rw [hp, optCase_none] at h3
      rw [setRoot_ok h3]
      rfl
    | some p =>
      rw [hp, optCase_some] at h3
      rcases run_bind_ok h3 with ⟨b, s3, h5, h6⟩
      rw [is_left_child_ok h5] at h6
      cases b with
      | true =>
        rw [iteM_true] at h6
        exact setLchild_colorFrame h6 q
      | false =>
        rw [iteM_false] at h6
        rcases run_bind_ok h6 with ⟨b2, s4, h7, h8⟩
        rw [is_right_child_ok h7] at h8
        cases b2 with
        | true =>
          rw [whenB_true] at h8
          exact setRchild_colorFrame h8 q
        | false =>
          rw [whenB_false] at h8
          obtain ⟨-, hs⟩ := pure_ok h8
          rw [hs]
  cases v with
  | none =>
    rw [optCase_none] at h4
    obtain ⟨-, hs⟩ := pure_ok h4
    rw [← hs] at hs2
    exact hs2
  | some vv =>
    rw [optCase_some] at h4
    rw [setParent_colorFrame h4 q]
    exact hs2

theorem transplant_present {uu : Nat} {v : Option Nat} {s s' : RBState}
    {x : Unit} {q : Nat} (h : (transplant (some uu) v).run s = .ok x s')
    (hq : s.heap q ≠ none) : s'.heap q ≠ none := by
  unfold transplant at h
  rw [optCase_some] at h
  rcases run_bind_ok h with ⟨un, s1, h1, h2⟩
  obtain ⟨hu, hs1⟩ := readNode_ok h1
  rw [hs1] at h2
  rcases run_bind_ok h2 with ⟨u2, s2, h3, h4⟩
  have hs2 : s2.heap q ≠ none := by
    cases hp : un.parent with
    | none =>
      rw [hp, optCase_none] at h3
      rw [setRoot_ok h3]
      exact hq
    | some p =>
      rw [hp, optCase_some] at h3
      rcases run_bind_ok h3 with ⟨b, s3, h5, h6⟩
      rw [is_left_child_ok h5] at h6
      cases b with
      | true =>
        rw [iteM_true] at h6
        exact setLchild_present h6 hq
      | false =>
        rw [iteM_false] at h6
        rcases run_bind_ok h6 with ⟨b2, s4, h7, h8⟩
        rw [is_right_child_ok h7] at h8
        cases b2 with
        | true =>
          rw [whenB_true] at h8
          exact setRchild_present h8 hq
        | false =>
          rw [whenB_false] at h8
          obtain ⟨-, hs⟩ := pure_ok h8
          rw [hs]
          exact hq
  cases v with
  | none =>
    rw [optCase_none] at h4
    obtain ⟨-, hs⟩ := pure_ok h4
    rw [hs]
    exact hs2
  | some vv =>
    rw [optCase_some] at h4
    exact setParent_present h4 hs2

/-- The membership descent of `remove` never changes the state when it
succeeds. -/
theorem remove_find_state (fuel : Nat) :
    ∀ (nd : Nat) (temp : Option Nat) (s s' : RBState) (b : Bool),
      (remove_find fuel nd temp).run s = .ok b s' → s' = s := by
  induction fuel with
  | zero =>
    intro nd temp s s' b h
    cases temp with
    | none => exact (pure_ok h).2
    | some t => cases h
  | succ f ih =>
    intro nd temp s s' b h
    cases temp with
    | none => exact (pure_ok h).2
    | some t =>
      simp only [remove_find] at h
      by_cases ht : (t == nd) = true
      · rw [ht, iteM_true] at h
        exact (pure_ok h).2
      · rw [Bool.not_eq_true] at ht
        rw [ht, iteM_false] at h
        rcases run_bind_ok h with ⟨nn, s1, h1, h2⟩
        obtain ⟨-, hs1⟩ := readNode_ok h1
        rw [hs1] at h2
        rcases run_bind_ok h2 with ⟨tn, s2, h3, h4⟩
        obtain ⟨-, hs2⟩ := readNode_ok h3
        rw [hs2] at h4
        by_cases hk : (decide (nn.key < tn.key)) = true
        · rw [hk, iteM_true] at h4
          exact ih nd tn.lchild s s' b h4
        · rw [Bool.not_eq_true] at hk
          rw [hk, iteM_false] at h4
          exact ih nd tn.rchild s s' b h4

/-! ## delete_fixup on an absent or RED node (the only shapes produced by
`remove` on a well-formed tree, since the spliced successor has no left
child) -/

theorem delete_fixup_none_ok {fuel : Nat} {s s' : RBState} {u : Unit}
    (h : (delete_fixup fuel none).run s = .ok u s') : s' = s := by
  cases fuel with
  | zero =>
    unfold delete_fixup at h
    rcases run_bind_ok h with ⟨n', s1, h1, h2⟩
    simp only [delete_fixup_loop] at h1
    cases h1
  | succ f =>
    unfold delete_fixup at h
    rcases run_bind_ok h with ⟨n', s1, h1, h2⟩
    simp only [delete_fixup_loop] at h1
    rcases run_bind_ok h1 with ⟨r, s2, h3, h4⟩
    obtain ⟨hr, hs2⟩ := getRoot_ok h3
    rw [hs2] at h4
    have hloop : n' = none ∧ s1 = s := by
      by_cases hb : ((none : Option Nat) == r) = true
      · rw [hb, iteM_true] at h4
        exact ⟨(pure_ok h4).1, (pure_ok h4).2⟩
      · rw [Bool.not_eq_true] at hb
        rw [hb, iteM_false, optCase_none] at h4
        exact ⟨(pure_ok h4).1, (pure_ok h4).2⟩
    obtain ⟨hn', hs1⟩ := hloop
    rw [hn', optCase_none] at h2
    obtain ⟨-, hs'⟩ := pure_ok h2
    rw [hs', hs1]

theorem delete_fixup_red_ok {fuel : Nat} {s s' : RBState} {u : Unit} {xa : Nat}
    {xn : Node} (hx : s.heap xa = some xn) (hcol : xn.color = RED)
    (h : (delete_fixup fuel (some xa)).run s = .ok u s') :
    s' = { s with heap := hupd s.heap xa { xn with color := BLACK } } := by
  cases fuel with
  | zero =>
    unfold delete_fixup at h
    rcases run_bind_ok h with ⟨n', s1, h1, h2⟩
    simp only [delete_fixup_loop] at h1
    cases h1
  | succ f =>
    unfold delete_fixup at h
    rcases run_bind_ok h with ⟨n', s1, h1, h2⟩
    simp only [delete_fixup_loop] at h1
    rcases run_bind_ok h1 with ⟨r, s2, h3, h4⟩
    obtain ⟨hr, hs2⟩ := getRoot_ok h3
    rw [hs2] at h4
    have hloop : n' = some xa ∧ s1 = s := by
      by_cases hb : ((some xa : Option Nat) == r) = true
      · rw [hb, iteM_true] at h4
        exact ⟨(pure_ok h4).1, (pure_ok h4).2⟩
      · rw [Bool.not_eq_true] at hb
        rw [hb, iteM_false, optCase_some] at h4
        rcases run_bind_ok h4 with ⟨nx, s3, h5, h6⟩
        obtain ⟨hx2, hs3⟩ := readNode_ok h5
        rw [hs3] at h6
        rw [hx] at hx2
        injection hx2 with hx3
        rw [← hx3, hcol] at h6
        rw [show ((RED == BLACK) = false) from rfl, iteM_false] at h6
        exact ⟨(pure_ok h6).1, (pure_ok h6).2⟩
    obtain ⟨hn', hs1⟩ := hloop
    rw [hn', optCase_some, hs1] at h2
    obtain ⟨nb, hnb, hs'⟩ := setColor_ok h2
    rw [hx] at hnb
    injection hnb with hnb2
    rw [hs', ← hnb2]

/-- The common tail of the two-children branch of `remove_surgery`
(RedBlackTree.h lines 544–547): `transplant(node, y)`, re-home `node`'s left
subtree under `y`, copy `node`'s color to `y`.  Tracks the removed node's
heap cell, the presence of `y` and `lc`, and that no color other than `y`'s
changes. -/
theorem remove_surgery_two_suffix {a y : Nat} {x0 : Option Nat} {c0 : COLOR}
    {S s2 : RBState} {na : Node} {xy : Option Nat × COLOR} {lc : Nat}
    (haS : S.heap a = some na) (hnal : na.lchild = some lc)
    (hpar : ∀ p, na.parent = some p → p ≠ a)
    (hyne : y ≠ a) (hlcne : lc ≠ a) (hyS : S.heap y ≠ none)
    (h : (do
        transplant (some a) (some y)
        setLchild y ((← readNode a).lchild)
        let lc2 ← derefAddr (← readNode a).lchild
        setParent lc2 (some y)
        setColor y ((← readNode a).color)
        M.pure (x0, c0)).run S = .ok xy s2) :
    s2.heap a = some na ∧ s2.heap y ≠ none ∧ s2.heap lc ≠ none ∧
      xy = (x0, c0) ∧
      (∀ q, q ≠ y → colorAt s2 q = colorAt S q) := by
  rcases run_bind_ok h with ⟨u1, T1, hT, h⟩
  have hT_a : T1.heap a = S.heap a := by
    refine transplant_heapFrame hT ?_ ?_
    · intro un hun p hp
      rw [haS] at hun
      injection hun with he
      rw [← he] at hp
      exact hpar p hp
    · intro he
      exact hyne (Option.some.inj he)
  have hT_y : T1.heap y ≠ none := transplant_present hT hyS
  have hT_col : ∀ q, colorAt T1 q = colorAt S q := transplant_colorFrame hT
  rcases run_bind_ok h with ⟨z4, T2, hZ4, h⟩
  obtain ⟨hz4, hT2⟩ := readNode_ok hZ4
  rw [hT2] at h
  rw [hT_a, haS] at hz4
  injection hz4 with hz4e
  rcases run_bind_ok h with ⟨u2, T3, hSetL, h⟩
  obtain ⟨ny, hny, hT3⟩ := setLchild_ok hSetL
  have hT3_a : T3.heap a = T1.heap a := by
    rw [hT3]
    exact hupd_other _ _ _ hyne.symm
  have hT3_y : T3.heap y ≠ none := by
    rw [hT3]
    exact hupd_present _ _ _ hT_y
  have hT3_col : ∀ q, q ≠ y → colorAt T3 q = colorAt T1 q := by
    intro q hq
    rw [hT3]
    simp [colorAt, hupd_other _ _ _ hq]
  rcases run_bind_ok h with ⟨z5, T4, hZ5, h⟩
  obtain ⟨hz5, hT4⟩ := readNode_ok hZ5
  rw [hT4] at h
  rw [hT3_a, hT_a, haS] at hz5
  injection hz5 with hz5e
  rcases run_bind_ok h with ⟨lc2, T5, hD2, h⟩
  obtain ⟨hdl, hT5⟩ := derefAddr_ok hD2
  rw [hT5] at h
  rw [← hz5e, hnal] at hdl
  injection hdl with hdle
  rw [← hdle] at h
  rcases run_bind_ok h with ⟨u3, T6, hSetP, h⟩
  obtain ⟨nlc, hnlc, hT6⟩ := setParent_ok hSetP
  have hT6_a : T6.heap a = T3.heap a := by
    rw [hT6]
    exact hupd_other _ _ _ hlcne.symm
  have hT6_y : T6.heap y ≠ none := by
    rw [hT6]
    exact hupd_present _ _ _ hT3_y
  have hT6_lc : T6.heap lc ≠ none := by
    rw [hT6]
    simp [hupd_same]
  have hT6_col : ∀ q, colorAt T6 q = colorAt T3 q := by
    intro q
    rw [hT6]
    by_cases hq : q = lc
    · subst hq
      simp [colorAt, hupd_same, hnlc]
    · simp [colorAt, hupd_other _ _ _ hq]
  rcases run_bind_ok h with ⟨z6, T7, hZ6, h⟩
  obtain ⟨hz6, hT7⟩ := readNode_ok hZ6
  rw [hT7] at h
  rcases run_bind_ok h with ⟨u4, T8, hSetC, h⟩
  obtain ⟨ny2, hny2, hT8⟩ := setColor_ok hSetC
  have hT8_a : T8.heap a = T6.heap a := by
    rw [hT8]
    exact hupd_other _ _ _ hyne.symm
  have hT8_y : T8.heap y ≠ none := by
    rw [hT8]
    exact hupd_present _ _ _ hT6_y
  have hT8_lc : T8.heap lc ≠ none := by
    rw [hT8]
    exact hupd_present _ _ _ hT6_lc
  have hT8_col : ∀ q, q ≠ y → colorAt T8 q = colorAt T6 q := by
    intro q hq
    rw [hT8]
    simp [colorAt, hupd_other _ _ _ hq]
  obtain ⟨hxyv, hs2⟩ := pure_ok h
  rw [hs2]
  refine ⟨?_, hT8_y, hT8_lc, hxyv, ?_⟩
  · rw [hT8_a, hT6_a, hT3_a, hT_a, haS]
  · intro q hq
    rw [hT8_col q hq, hT6_col q, hT3_col q hq, hT_col q]

/-- The `y != node->rchild` block of the two-children branch (RedBlackTree.h
lines 537–542): cut the successor out of the right subtree and re-home the
right subtree under it, ending with `node->rchild = y`.  Tracks the removed
node's cell, the presence of `y`, and that no colors change. -/
theorem remove_surgery_two_block {a y rc : Nat} {st S1 : RBState} {n yn : Node}
    {u : Unit}
    (ha : st.heap a = some n) (hr : n.rchild = some rc)
    (hy : st.heap y = some yn) (hyne : y ≠ a) (hrcne : rc ≠ a)
    (hxna : yn.rchild ≠ some a)
    (hpy : ∀ py, yn.parent = some py → py ≠ a)
    (h : (do
        transplant (some y) ((← readNode y).rchild)
        setRchild y ((← readNode a).rchild)
        let rc2 ← derefAddr (← readNode a).rchild
        setParent rc2 (some y)
        setRchild a (some y)).run st = .ok u S1) :
    S1.heap a = some { n with rchild := some y } ∧ S1.heap y ≠ none ∧
      (∀ q, colorAt S1 q = colorAt st q) := by
  rcases run_bind_ok h with ⟨z1, U0, hZ1, h⟩
  obtain ⟨hz1, hU0⟩ := readNode_ok hZ1
  rw [hU0] at h
  rw [hy] at hz1
  injection hz1 with hz1e
  rcases run_bind_ok h with ⟨u1, U1, hT, h⟩
  have hU1_a : U1.heap a = st.heap a := by
    refine transplant_heapFrame hT ?_ ?_
    · intro un hun p hp
      rw [hy] at hun
      injection hun with he
      rw [← he] at hp
      exact hpy p hp
    · rw [← hz1e]
      exact hxna
  have hU1_y : U1.heap y ≠ none := transplant_present hT (by rw [hy]; simp)
  have hU1_col : ∀ q, colorAt U1 q = colorAt st q := transplant_colorFrame hT
  rcases run_bind_ok h with ⟨z2, U2, hZ2, h⟩
  obtain ⟨hz2, hU2⟩ := readNode_ok hZ2
  rw [hU2] at h
  rw [hU1_a, ha] at hz2
  injection hz2 with hz2e
  rcases run_bind_ok h with ⟨u2, U3, hSetR, h⟩
  obtain ⟨ny, hny, hU3⟩ := setRchild_ok hSetR
  have hU3_a : U3.heap a = U1.heap a := by
    rw [hU3]
    exact hupd_other _ _ _ hyne.symm
  have hU3_y : U3.heap y ≠ none := by
    rw [hU3]
    exact hupd_present _ _ _ hU1_y
  have hU3_col : ∀ q, colorAt U3 q = colorAt U1 q := by
    intro q
    rw [hU3]
    by_cases hq : q = y
    · subst hq
      simp [colorAt, hupd_same, hny]
    · simp [colorAt, hupd_other _ _ _ hq]
  rcases run_bind_ok h with ⟨z3, U4, hZ3, h⟩
  obtain ⟨hz3, hU4⟩ := readNode_ok hZ3
  rw [hU4] at h
  rw [hU3_a, hU1_a, ha] at hz3
  injection hz3 with hz3e
  rcases run_bind_ok h with ⟨rc2, U5, hD, h⟩
  obtain ⟨hdl, hU5⟩ := derefAddr_ok hD
  rw [hU5] at h
  rw [← hz3e, hr] at hdl
  injection hdl with hdle
  rw [← hdle] at h
  rcases run_bind_ok h with ⟨u3, U6, hSetP, h⟩
  obtain ⟨nrc, hnrc, hU6⟩ := setParent_ok hSetP
  have hU6_a : U6.heap a = U3.heap a := by
    rw [hU6]
    exact hupd_other _ _ _ hrcne.symm
  have hU6_y : U6.heap y ≠ none := by
    rw [hU6]
    exact hupd_present _ _ _ hU3_y
  have hU6_col : ∀ q, colorAt U6 q = colorAt U3 q := by
    intro q
    rw [hU6]
    by_cases hq : q = rc
    · subst hq
      simp [colorAt, hupd_same, hnrc]
    · simp [colorAt, hupd_other _ _ _ hq]
  obtain ⟨na, hna, hS1⟩ := setRchild_ok h
  rw [hU6_a, hU3_a, hU1_a, ha] at hna
  injection hna with hnae
  constructor
  · rw [hS1]
    show hupd U6.heap a { na with rchild := some y } a
      = some { n with rchild := some y }
    rw [hupd_same, ← hnae]
  constructor
  · rw [hS1]
    exact hupd_present _ _ _ hU6_y
  · intro q
    have hcol : colorAt S1 q = colorAt U6 q := by
      rw [hS1]
      by_cases hq : q = a
      · rw [hq]
        show (hupd U6.heap a { na with rchild := some y } a).map Node.color
          = colorAt U6 a
        rw [hupd_same]
        unfold colorAt
        rw [hU6_a, hU3_a, hU1_a, ha, hnae]
        rfl
      · show (hupd U6.heap a { na with rchild := some y } q).map Node.color
          = colorAt U6 q
        rw [hupd_other _ _ _ hq]
        rfl
    rw [hcol, hU6_col q, hU3_col q, hU1_col q]

/-- A successful `remove` on a non-null node is exactly a successful
membership check followed by a successful `remove_surgery` from the same
state. -/
theorem remove_ok_surgery {fuel a : Nat} {st s' : RBState} {v : COLOR × Bool}
    (h : (remove fuel (some a)).run st = .ok v s') :
    (remove_surgery fuel a).run st = .ok v s' := by
  unfold remove at h
  rw [optCase_some] at h
  rcases run_bind_ok h with ⟨r, s1, h1, h2⟩
  obtain ⟨hr, hs1⟩ := getRoot_ok h1
  rw [hs1] at h2
  rcases run_bind_ok h2 with ⟨found, s2, h3, h4⟩
  have hs2 := remove_find_state fuel a r st s2 found h3
  rw [hs2] at h4
  cases found with
  | true => rw [iteM_true] at h4; exact h4
  | false => rw [iteM_false] at h4; cases h4

/-- `remove_surgery` on a node with no children never touches the node's
own cell: the only writes go to the parent's child slot (or the root). -/
theorem remove_surgery_leaf {fuel a : Nat} {st s' : RBState} {n : Node}
    {v : COLOR × Bool}
    (ha : st.heap a = some n) (hl : n.lchild = none) (hr : n.rchild = none)
    (hpar : ∀ p, n.parent = some p → p ≠ a)
    (h : (remove_surgery fuel a).run st = .ok v s') :
    s'.heap a = some n := by
  unfold remove_surgery at h
  rcases run_bind_ok h with ⟨n0, s1, h1, h2⟩
  obtain ⟨ha0, hs1⟩ := readNode_ok h1
  rw [hs1] at h2
  rw [ha] at ha0
  injection ha0 with hn0
  rw [← hn0] at h2
  rw [hl, optCase_none, hr, optCase_none] at h2
  rcases run_bind_ok h2 with ⟨xy, s2, h3, hFix⟩
  rcases run_bind_ok h3 with ⟨u0, s3, h5, h6⟩
  have hs3 : s3.heap a = st.heap a := by
    cases hp : n.parent with
    | none =>
      rw [hp, optCase_none] at h5
      rw [setRoot_ok h5]
    | some p =>
      have hpa : p ≠ a := hpar p hp
      rw [hp, optCase_some] at h5
      rcases run_bind_ok h5 with ⟨b1, t1, h7, h8⟩
      rw [is_left_child_ok h7] at h8
      rcases run_bind_ok h8 with ⟨u1, t2, h9, h10⟩
      have ht2 : t2.heap a = st.heap a := by
        cases b1 with
        | true =>
          rw [whenB_true] at h9
          exact setLchild_heapFrame h9 (fun he => hpa he.symm)
        | false =>
          rw [whenB_false] at h9
          rw [(pure_ok h9).2]
      rcases run_bind_ok h10 with ⟨b2, t3, h11, h12⟩
      rw [is_right_child_ok h11] at h12
      cases b2 with
      | true =>
        rw [whenB_true] at h12
        rw [setRchild_heapFrame h12 (fun he => hpa he.symm)]
        exact ht2
      | false =>
        rw [whenB_false] at h12
        rw [(pure_ok h12).2]
        exact ht2
  obtain ⟨hxyv, hs2⟩ := pure_ok h6
  rw [hxyv] at hFix
  rw [show ((((none : Option Nat), RED)).2 == BLACK) = false from rfl,
      iteM_false] at hFix
  obtain ⟨-, hs'⟩ := pure_ok hFix
  rw [hs', hs2, hs3]
  exact ha

/-- `remove_surgery` on a node with exactly one child (either side) never
touches the node's own cell: the only writes are `transplant`'s. -/
theorem remove_surgery_onechild {fuel a c : Nat} {st s' : RBState} {n : Node}
    {v : COLOR × Bool}
    (ha : st.heap a = some n)
    (hshape : (n.lchild = none ∧ n.rchild = some c) ∨
      (n.lchild = some c ∧ n.rchild = none))
    (hpar : ∀ p, n.parent = some p → p ≠ a) (hcne : c ≠ a)
    (h : (remove_surgery fuel a).run st = .ok v s') :
    s'.heap a = some n := by
  unfold remove_surgery at h
  rcases run_bind_ok h with ⟨n0, s1, h1, h2⟩
  obtain ⟨ha0, hs1⟩ := readNode_ok h1
  rw [hs1] at h2
  rw [ha] at ha0
  injection ha0 with hn0
  rw [← hn0] at h2
  have hbranch : ∃ xy s2,
      ((do
        transplant (some a) (some c)
        M.pure ((some c : Option Nat), RED)).run st = .ok xy s2) ∧
      ((iteM (xy.2 == BLACK)
        (do delete_fixup fuel xy.1; M.pure (xy.2, true))
        (M.pure (xy.2, false))).run s2 = .ok v s') := by
    rcases hshape with ⟨hl, hr⟩ | ⟨hl, hr⟩
    · rw [hl, optCase_none, hr, optCase_some] at h2
      rcases run_bind_ok h2 with ⟨xy, s2, h3, hFix⟩
      exact ⟨xy, s2, h3, hFix⟩
    · rw [hl, optCase_some, hr, optCase_none] at h2
      rcases run_bind_ok h2 with ⟨xy, s2, h3, hFix⟩
      exact ⟨xy, s2, h3, hFix⟩
  rcases hbranch with ⟨xy, s2, h3, hFix⟩
  rcases run_bind_ok h3 with ⟨u0, s3, h5, h6⟩
  have hs3 : s3.heap a = st.heap a := by
    refine transplant_heapFrame h5 ?_ ?_
    · intro un hun p hp
      rw [ha] at hun
      injection hun with he
      rw [← he] at hp
      exact hpar p hp
    · intro he
      exact hcne (Option.some.inj he)
  obtain ⟨hxyv, hs2⟩ := pure_ok h6
  rw [hxyv] at hFix
  rw [show ((((some c : Option Nat), RED)).2 == BLACK) = false from rfl,
      iteM_false] at hFix
  obtain ⟨-, hs'⟩ := pure_ok hFix
  rw [hs', hs2, hs3]
  exact ha

/-- The final `if (y_color == BLACK) delete_fixup(x)` step of `remove`
(RedBlackTree.h lines 551–552), for the `x` shapes that `remove` can hand it
on a well-formed tree: absent or RED.  Either way the step at most recolors
`x` BLACK, so every other cell survives untouched. -/
theorem remove_fixup_tail {fuel : Nat} {sMid s' : RBState} {v : COLOR × Bool}
    {x0 : Option Nat} {c0 : COLOR} {y a lc : Nat} {na : Node}
    (hMa : sMid.heap a = some na) (hMy : sMid.heap y ≠ none)
    (hMlc : sMid.heap lc ≠ none)
    (hxne_a : ∀ xa, x0 = some xa → xa ≠ a)
    (hxred : ∀ xa, x0 = some xa → colorAt sMid xa = some RED)
    (hFix : (iteM ((x0, c0).2 == BLACK)
        (do delete_fixup fuel (x0, c0).1; M.pure ((x0, c0).2, true))
        (M.pure ((x0, c0).2, false))).run sMid = .ok v s') :
    s'.heap a = some na ∧ s'.heap y ≠ none ∧ s'.heap lc ≠ none := by
  cases c0 with
  | RED =>
    rw [show (((x0, RED)).2 == BLACK) = false from rfl, iteM_false] at hFix
    obtain ⟨-, hs'⟩ := pure_ok hFix
    rw [hs']
    exact ⟨hMa, hMy, hMlc⟩
  | BLACK =>
    rw [show (((x0, BLACK)).2 == BLACK) = true from rfl, iteM_true] at hFix
    rcases run_bind_ok hFix with ⟨u9, T9, hDF, hP9⟩
    rw [show ((x0, BLACK)).1 = x0 from rfl] at hDF
    obtain ⟨-, hs'⟩ := pure_ok hP9
    rw [hs']
    cases hx : x0 with
    | none =>
      rw [hx] at hDF
      rw [delete_fixup_none_ok hDF]
      exact ⟨hMa, hMy, hMlc⟩
    | some xa =>
      rw [hx] at hDF
      have hxa_ne_a : xa ≠ a := hxne_a xa hx
      have hcolx : colorAt sMid xa = some RED := hxred xa hx
      obtain ⟨xn, hxheap, hxcolor⟩ :
          ∃ xn, sMid.heap xa = some xn ∧ xn.color = RED := by
        unfold colorAt at hcolx
        cases hh : sMid.heap xa with
        | none => rw [hh] at hcolx; cases hcolx
        | some xn =>
          rw [hh] at hcolx
          injection hcolx with hc
          exact ⟨xn, rfl, hc⟩
      have hT9 := delete_fixup_red_ok hxheap hxcolor hDF
      rw [hT9]
      refine ⟨?_, ?_, ?_⟩
      · show hupd sMid.heap xa { xn with color := BLACK } a = some na
        rw [hupd_other _ _ _ (fun he => hxa_ne_a he.symm)]
        exact hMa
      · show hupd sMid.heap xa { xn with color := BLACK } y ≠ none
        exact hupd_present _ _ _ hMy
      · show hupd sMid.heap xa { xn with color := BLACK } lc ≠ none
        exact hupd_present _ _ _ hMlc

/-- `remove_surgery` on a node with two children: the removed node's cell
survives with `parent` and `lchild` untouched and `rchild` pointing at the
spliced-in successor `y`, and both `lchild`'s target and `y` are still
allocated when the surgery returns.  The hypotheses about `y` are facts
every well-formed red-black tree provides: `y` is the in-order successor
inside the right subtree (distinct from the removed node, never reachable
through its own right child), its parent is the removed node only when it
is the immediate right child, and — because `y` has no left child — `y`'s
right child is RED if present (else the black-height under `y` would be
unbalanced). -/
theorem remove_surgery_two {fuel a lc rc y : Nat} {st s' : RBState} {n : Node}
    {v : COLOR × Bool}
    (ha : st.heap a = some n) (hl : n.lchild = some lc)
    (hr : n.rchild = some rc)
    (hpar : ∀ p, n.parent = some p → p ≠ a)
    (hlcne : lc ≠ a) (hrcne : rc ≠ a)
    (hsucc : (successor fuel (some a)).run st = .ok (some y) st)
    (hyne : y ≠ a)
    (hyn : ∀ yn, st.heap y = some yn →
      yn.rchild ≠ some a ∧ yn.rchild ≠ some y ∧
      (y ≠ rc → ∀ py, yn.parent = some py → py ≠ a) ∧
      (∀ xa, yn.rchild = some xa → colorAt st xa = some RED))
    (h : (remove_surgery fuel a).run st = .ok v s') :
    ∃ n', s'.heap a = some n' ∧ n'.parent = n.parent ∧
      n'.lchild = some lc ∧ n'.rchild = some y ∧
      s'.heap y ≠ none ∧ s'.heap lc ≠ none := by
  unfold remove_surgery at h
  rcases run_bind_ok h with ⟨n0, s1, h1, h2⟩
  obtain ⟨ha0, hs1⟩ := readNode_ok h1
  rw [hs1] at h2
  rw [ha] at ha0
  injection ha0 with hn0
  rw [← hn0] at h2
  rw [hl, optCase_some, hr, optCase_some] at h2
  rcases run_bind_ok h2 with ⟨xy, sMid, hBody, hFix⟩
  rcases run_bind_ok hBody with ⟨y?, t1, hS, hB⟩
  have hSe := hsucc.symm.trans hS
  injection hSe with hye hte
  rw [← hye, ← hte] at hB
  rcases run_bind_ok hB with ⟨y2, t2, hD, hB⟩
  obtain ⟨hy2, ht2⟩ := derefAddr_ok hD
  injection hy2 with hy2e
  rw [← hy2e] at hB
  rw [ht2] at hB
  rcases run_bind_ok hB with ⟨yn, t3, hYn, hB⟩
  obtain ⟨hyheap, ht3⟩ := readNode_ok hYn
  rw [ht3] at hB
  obtain ⟨hxna, hxny, hpy, hxcol⟩ := hyn yn hyheap
  rcases run_bind_ok hB with ⟨z0, t4, hZ0, hB⟩
  obtain ⟨hz0, ht4⟩ := readNode_ok hZ0
  rw [ht4] at hB
  rw [ha] at hz0
  injection hz0 with hz0e
  rw [← hz0e, hr] at hB
  by_cases hyrc : y = rc
  · have hbne : ((some y != some rc) : Bool) = false := by simp [hyrc]
    rw [hbne, whenB_false] at hB
    rcases run_bind_ok hB with ⟨u0, t5, hP, hB⟩
    obtain ⟨-, ht5⟩ := pure_ok hP
    rw [ht5] at hB
    have hsuf := remove_surgery_two_suffix ha hl hpar hyne hlcne
      (by rw [hyheap]; exact Option.noConfusion) hB
    obtain ⟨hMa, hMy, hMlc, hxyv, hMcol⟩ := hsuf
    rw [hxyv] at hFix
    have htail := remove_fixup_tail hMa hMy hMlc
      (fun xa hxa he => hxna (by rw [hxa, he]))
      (fun xa hxa => by
        rw [hMcol xa (fun he => hxny (by rw [hxa, he]))]
        exact hxcol xa hxa)
      hFix
    exact ⟨n, htail.1, rfl, hl, by rw [hr, hyrc], htail.2.1, htail.2.2⟩
  · have hbne : ((some y != some rc) : Bool) = true := by simp [hyrc]
    rw [hbne, whenB_true] at hB
    rcases run_bind_ok hB with ⟨u0, S1, hBlock, hB⟩
    obtain ⟨hS1a, hS1y, hS1col⟩ :=
      remove_surgery_two_block ha hr hyheap hyne hrcne hxna (hpy hyrc) hBlock
    have hsuf := remove_surgery_two_suffix hS1a
      (show ({ n with rchild := some y } : Node).lchild = some lc from hl)
      (fun p hp => hpar p hp) hyne hlcne hS1y hB
    obtain ⟨hMa, hMy, hMlc, hxyv, hMcol⟩ := hsuf
    rw [hxyv] at hFix
    have htail := remove_fixup_tail hMa hMy hMlc
      (fun xa hxa he => hxna (by rw [hxa, he]))
      (fun xa hxa => by
        rw [hMcol xa (fun he => hxny (by rw [hxa, he]))]
        rw [hS1col xa]
        exact hxcol xa hxa)
      hFix
    exact ⟨{ n with rchild := some y }, htail.1, rfl, hl, rfl,
      htail.2.1, htail.2.2⟩

/-- C10: after `remove` returns normally the removed node's own `parent`,
`lchild` and `rchild` fields are not cleared.  In the no-children and
one-child shapes the node's cell is bit-for-bit what it was (its fields may
still point into the tree); in the two-children shape `parent` and `lchild`
are untouched, `rchild` is left pointing at the spliced-in successor `y`
(RedBlackTree.h line 541 sets it, and in the immediate-right-child shape it
already was `y`), and both `lchild`'s target and `y` are nodes that remain
allocated in the tree state, distinct from the removed node.  The
hypotheses on `y` record facts every well-formed red-black tree supplies
(see `remove_surgery_two`). -/
theorem C10_removed_node_fields_not_cleared (st : RBState) (a : Nat) (n : Node)
    (fuel : Nat) (ha : st.heap a = some n)
    (hpar : ∀ p, n.parent = some p → p ≠ a) :
    (n.lchild = none → n.rchild = none →
      ∀ v s', (remove fuel (some a)).run st = .ok v s' → s'.heap a = some n) ∧
    (∀ c, ((n.lchild = none ∧ n.rchild = some c) ∨
        (n.lchild = some c ∧ n.rchild = none)) → c ≠ a →
      ∀ v s', (remove fuel (some a)).run st = .ok v s' → s'.heap a = some n) ∧
    (∀ lc rc y, n.lchild = some lc → n.rchild = some rc →
      lc ≠ a → rc ≠ a →
      (successor fuel (some a)).run st = .ok (some y) st → y ≠ a →
      (∀ yn, st.heap y = some yn →
        yn.rchild ≠ some a ∧ yn.rchild ≠ some y ∧
        (y ≠ rc → ∀ py, yn.parent = some py → py ≠ a) ∧
        (∀ xa, yn.rchild = some xa → colorAt st xa = some RED)) →
      ∀ v s', (remove fuel (some a)).run st = .ok v s' →
        ∃ n', s'.heap a = some n' ∧ n'.parent = n.parent ∧
          n'.lchild = some lc ∧ n'.rchild = some y ∧ y ≠ a ∧ lc ≠ a ∧
          s'.heap y ≠ none ∧ s'.heap lc ≠ none) := by
  refine ⟨?_, ?_, ?_⟩
  · intro hl hr v s' h
    exact remove_surgery_leaf ha hl hr hpar (remove_ok_surgery h)
  · intro c hshape hcne v s' h
    exact remove_surgery_onechild ha hshape hpar hcne (remove_ok_surgery h)
  · intro lc rc y hl hr hlcne hrcne hsucc hyne hyn v s' h
    obtain ⟨n', h1, h2, h3, h4, h5, h6⟩ :=
      remove_surgery_two ha hl hr hpar hlcne hrcne hsucc hyne hyn
        (remove_ok_surgery h)
    exact ⟨n', h1, h2, h3, h4, hyne, hlcne, h5, h6⟩

/-- A three-node tree for exercising the two-children removal: BLACK root 0
(key 10) with BLACK children 1 (key 5) and 2 (key 20). -/
def stTwoKids : RBState :=
  { heap := fun b =>
      if b = 0 then
        some { key := 10, color := BLACK, lchild := some 1, rchild := some 2,
               parent := none }
      else if b = 1 then
        some { key := 5, color := BLACK, lchild := none, rchild := none,
               parent := some 0 }
      else if b = 2 then
        some { key := 20, color := BLACK, lchild := none, rchild := none,
               parent := some 0 }
      else none,
    root := some 0 }

/-- Witness for C10: removing the two-children root of `stTwoKids` leaves
node 0's cell with `parent` and `lchild` untouched and `rchild` pointing at
the spliced-in successor 2, both 1 and 2 still allocated. -/
theorem C10_removed_node_fields_not_cleared_witness :
    ∃ n', ((remove 20 (some 0)).stateOf stTwoKids).heap 0 = some n' ∧
      n'.parent = none ∧ n'.lchild = some 1 ∧ n'.rchild = some 2 ∧
      (2 : Nat) ≠ 0 ∧ (1 : Nat) ≠ 0 ∧
      ((remove 20 (some 0)).stateOf stTwoKids).heap 2 ≠ none ∧
      ((remove 20 (some 0)).stateOf stTwoKids).heap 1 ≠ none := by
  have h := (C10_removed_node_fields_not_cleared stTwoKids 0 _ 20 rfl
      (by intro p hp; cases hp)).2.2 1 2 2 rfl rfl (by decide) (by decide)
      (by rfl) (by decide)
      (by
        intro yn hy
        injection hy with he
        refine ⟨?_, ?_, fun hcon => absurd rfl hcon, ?_⟩
        · rw [← he]; decide
        · rw [← he]; decide
        · intro xa hxa
          rw [← he] at hxa
          cases hxa)
      (BLACK, true) ((remove 20 (some 0)).stateOf stTwoKids) (by rfl)
  exact h

end RBT
